import Mathlib

/-!
# Offboard rectangle-pattern controller (`src/examples/offboard/offboard.cpp`)

A shallow embedding of `main` as a deterministic small-step machine.

* The vehicle, the operator and the command line are an explicit `World`: every
  value the program obtains from a collaborator (an acknowledgment, a telemetry
  read, a parsed argument) is looked up there, indexed by how many times the
  program has asked before.
* One `step` executes one basic block of `main`; the program counter `Pc` names the
  source line where the block starts.  Unbounded loops are iterated by `runN`.
* The heartbeat callback of line 102 runs on another thread; `deliver` is its body
  and `exec` interleaves it with the steps of `main` in any order.
* A `float` or `double` value is an `Fp`: the rational it denotes, an infinity or NaN.
  Arithmetic is exact arithmetic followed by `Fp.round32`, rounding to the nearest
  binary32 value with ties to even, overflow to infinity and gradual underflow;
  `Fp.narrow` is the conversion of a `double` to `float` (lines 129, 200); every
  comparison with NaN is false.  `float` expressions are evaluated in `float`.  Literals
  carry the exact value of the `float` literal in the source (`0.2f` is
  `13421773 / 2^26`).  The two zeros are not told apart.
-/

namespace Offboard

/-! ## Floating point -/

/-- A value of a C++ `float` or `double`: a finite value (the rational it denotes), an
infinity with its sign, or NaN. -/
inductive Fp where
  | finite (q : ℚ)
  | inf (negative : Bool)
  | nan
  deriving DecidableEq

namespace Fp

/-- The comparison `a < b`: false as soon as one side is NaN. -/
def lt : Fp → Fp → Bool
  | finite a, finite b => decide (a < b)
  | finite _, inf n => !n
  | inf n, finite _ => n
  | inf n, inf m => n && !m
  | _, _ => false

/-- The comparison `a <= b`: false as soon as one side is NaN. -/
def le : Fp → Fp → Bool
  | finite a, finite b => decide (a ≤ b)
  | finite _, inf n => !n
  | inf n, finite _ => n
  | inf n, inf m => n || !m
  | _, _ => false

instance : LT Fp := ⟨fun a b => lt a b = true⟩

instance : LE Fp := ⟨fun a b => le a b = true⟩

instance (a b : Fp) : Decidable (a < b) := inferInstanceAs (Decidable (lt a b = true))

instance (a b : Fp) : Decidable (a ≤ b) := inferInstanceAs (Decidable (le a b = true))

/-- Unary minus: exact. -/
def neg : Fp → Fp
  | finite q => finite (-q)
  | inf n => inf (!n)
  | nan => nan

instance : Neg Fp := ⟨neg⟩

instance (n : Nat) : OfNat Fp n := ⟨finite n⟩

/-- The integer nearest to `s`, the even one of the two when `s` lies half-way. -/
def roundHalfEven (s : ℚ) : ℤ :=
  if s - ⌊s⌋ < 1 / 2 then ⌊s⌋
  else if 1 / 2 < s - ⌊s⌋ then ⌊s⌋ + 1
  else if ⌊s⌋ % 2 = 0 then ⌊s⌋ else ⌊s⌋ + 1

/-- The exponent of the last place of the binary32 values around `q`: 24 significant
bits, and `2^-149` for the subnormal range. -/
def quantum (q : ℚ) : ℤ := max (Int.log 2 |q| - 23) (-149)

/-- The binary32 value nearest to the rational `q` (ties to even); an infinity when the
rounded magnitude reaches `2^128`. -/
def round32 (q : ℚ) : Fp :=
  let r : ℚ := roundHalfEven (q / 2 ^ quantum q) * 2 ^ quantum q
  if 2 ^ (128 : ℤ) ≤ |r| then inf (decide (q < 0)) else finite r

/-- The conversion of a `double` to `float`. -/
def narrow : Fp → Fp
  | finite q => round32 q
  | x => x

/-- Addition of two `float`s. -/
def add : Fp → Fp → Fp
  | finite a, finite b => round32 (a + b)
  | finite _, inf n => inf n
  | inf n, finite _ => inf n
  | inf n, inf m => if n = m then inf n else nan
  | _, _ => nan

/-- Division of two `float`s; a zero divisor counts as `+0`. -/
def div : Fp → Fp → Fp
  | finite a, finite b =>
      if b = 0 then (if a = 0 then nan else inf (decide (a < 0))) else round32 (a / b)
  | finite _, inf _ => finite 0
  | inf n, finite b => inf (n != decide (b < 0))
  | _, _ => nan

instance : Add Fp := ⟨add⟩

instance : Div Fp := ⟨div⟩

end Fp

/-! ## Data -/

/-- Outcome of a MAVSDK request (`ConnectionResult`, `Telemetry::Result`,
`Action::Result`, `Offboard::Result`).  The program only ever tests a result against
`Success`; every other enumerator is `Other` with its numeric value. -/
inductive Result where
  | Success
  | Other (code : Nat)
  deriving DecidableEq

/-- What `std::stod` does on an argument: it returns a `double` (which may be an
infinity or NaN, for the words `inf` and `nan`) or throws one of the two exceptions
caught at lines 38..46 and 52..60. -/
inductive StodResult where
  | value (v : Fp)
  | invalid_argument
  | out_of_range
  deriving DecidableEq

/-- The `Offboard::PositionNedYaw` aggregate, over the type `α` of its members: `Fp` in
the program, `ℚ` where the geometry is looked at in exact arithmetic. -/
structure PositionNedYaw (α : Type) where
  north_m : α
  east_m : α
  down_m : α
  yaw_deg : α
  deriving DecidableEq

/-- The `Offboard::VelocityNedYaw` aggregate. -/
structure VelocityNedYaw where
  north_m_s : Fp
  east_m_s : Fp
  down_m_s : Fp
  yaw_deg : Fp
  deriving DecidableEq

/-- The value-initialised `stay{}` of line 174: all four members are zero. -/
def stay : VelocityNedYaw := ⟨0, 0, 0, 0⟩

/-- Everything the program receives from outside. -/
structure World where
  /-- Number of command-line words, program name included. -/
  argc : Nat
  /-- Outcome of `std::stod(argv[2])`. -/
  altitude_arg : StodResult
  /-- Outcome of `std::stod(argv[3])`. -/
  dimension_arg : StodResult
  /-- Outcome of `mavsdk.add_any_connection(argv[1])`. -/
  aircraft_result : Result
  /-- Whether `mavsdk.first_autopilot(3.0)` found a system. -/
  system_found : Bool
  /-- Outcome of `telemetry.set_rate_position(0.2)`. -/
  set_rate_result : Result
  /-- The value of `telemetry.health().is_local_position_ok` at its n-th read. -/
  is_local_position_ok : Nat → Bool
  /-- The value of `telemetry.position_velocity_ned().position.down_m` at its n-th read;
  MAVSDK reports NaN until the first position message has arrived. -/
  down_m : Nat → Fp
  /-- Acknowledgment of `action.set_takeoff_altitude`. -/
  set_altitude_result : Result
  /-- Acknowledgment of `action.arm`. -/
  arm_result : Result
  /-- Acknowledgment of `action.takeoff`. -/
  takeoff_result : Result
  /-- Outcome of the n-th `offboard.start()`. -/
  offboard_result : Nat → Result
  /-- The value of `telemetry.battery().voltage_v` at its n-th read. -/
  voltage_v : Nat → Fp

/-- Observable interactions of the program, in the order they happen. -/
inductive Event where
  | health (ok : Bool)
  | position_velocity_ned (down_m : Fp)
  | battery (voltage_v : Fp)
  | subscribe_message
  | set_takeoff_altitude (h : Fp) (r : Result)
  | arm (r : Result)
  | takeoff (r : Result)
  | set_velocity_ned (v : VelocityNedYaw)
  | start (r : Result)
  | set_position_ned (p : PositionNedYaw Fp)
  | sleep_for (s : Nat)
  | getline
  deriving DecidableEq

/-- Control points of `main`, named after what the block starting there does. -/
inductive Pc where
  /-- Line 29. -/
  | check_argc
  /-- Line 36. -/
  | parse_altitude
  /-- Line 50. -/
  | parse_dimension
  /-- Line 67. -/
  | add_any_connection
  /-- Line 74. -/
  | first_autopilot
  /-- Line 87. -/
  | set_rate_position
  /-- Line 94. -/
  | position_lock
  /-- Lines 102 and 118. -/
  | subscribe_message
  /-- Line 122. -/
  | preflight
  /-- Line 131. -/
  | set_takeoff_altitude
  /-- Line 144. -/
  | arm
  /-- Line 154. -/
  | takeoff
  /-- Line 161. -/
  | climb
  /-- Lines 168 and 171. -/
  | hover
  /-- Line 172. -/
  | offboard_retry
  /-- Line 191. -/
  | offboard_check
  /-- Lines 205..212. -/
  | hold_over_rx
  /-- Line 214. -/
  | battery_hold
  /-- Lines 220..225. -/
  | press_enter
  /-- Line 238. -/
  | position_1
  /-- Line 242. -/
  | position_2
  /-- Line 246. -/
  | position_3
  /-- Line 250. -/
  | position_4
  /-- Line 254. -/
  | position_5
  /-- Line 258. -/
  | position_6
  /-- Line 262. -/
  | back_to_rx
  deriving DecidableEq

/-- The state of the process: where `main` stands, its local variables, whether the
heartbeat callback is registered, how often each collaborator has been asked, and the
interactions so far.  `exit_code = none` while the process is alive. -/
structure Config where
  pc : Pc
  exit_code : Option Nat
  altitude : Fp
  pattern_dimension : Fp
  retry_offboard_count : Nat
  battery_voltage : Fp
  subscribed : Bool
  health_reads : Nat
  position_reads : Nat
  battery_reads : Nat
  start_calls : Nat
  log : List Event

/-- The process at the first line of `main`. -/
def init : Config :=
  { pc := .check_argc, exit_code := none, altitude := 0, pattern_dimension := 0,
    retry_offboard_count := 0, battery_voltage := 0, subscribed := false,
    health_reads := 0, position_reads := 0, battery_reads := 0, start_calls := 0,
    log := [] }

/-! ## Constants and derived locals -/

/-- The literal `0.2f` of line 122. -/
def safe_band : Fp := .finite (13421773 / 67108864)

/-- The literal `0.25f` of line 161. -/
def climb_margin : Fp := .finite (1 / 4)

/-- The literal `7.0f` of line 214. -/
def low_voltage : Fp := .finite 7

/-- The literal `196608` of line 108. -/
def manual_mode : Nat := 196608

/-- Line 129: `float takeoff_altitude = altitude`, a narrowing conversion. -/
def Config.takeoff_altitude (c : Config) : Fp := Fp.narrow c.altitude

/-- Line 200: `float ui = pattern_dimension`, a narrowing conversion. -/
def Config.ui (c : Config) : Fp := Fp.narrow c.pattern_dimension

/-- Line 205: `float pa = -(takeoff_altitude)`. -/
def Config.pa (c : Config) : Fp := -(c.takeoff_altitude)

/-- Line 207. -/
def point1 {α : Type} [OfNat α 0] (_ui pa : α) : PositionNedYaw α := ⟨0, 0, pa, 0⟩
/-- Line 230. -/
def point2 {α : Type} [OfNat α 0] [OfNat α 2] [Neg α] [Div α] (ui pa : α) :
    PositionNedYaw α := ⟨-(ui / 2), 0, pa, 0⟩
/-- Line 231. -/
def point3 {α : Type} [OfNat α 0] [OfNat α 2] [Neg α] [Div α] (ui pa : α) :
    PositionNedYaw α := ⟨-(ui / 2), ui / 2, pa, 0⟩
/-- Line 232. -/
def point4 {α : Type} [OfNat α 0] [OfNat α 2] [Neg α] [Div α] (ui pa : α) :
    PositionNedYaw α := ⟨ui / 2, ui / 2, pa, 0⟩
/-- Line 233. -/
def point5 {α : Type} [OfNat α 0] [OfNat α 2] [Neg α] [Div α] (ui pa : α) :
    PositionNedYaw α := ⟨ui / 2, -(ui / 2), pa, 0⟩
/-- Line 234. -/
def point6 {α : Type} [OfNat α 0] [OfNat α 2] [Neg α] [Div α] (ui pa : α) :
    PositionNedYaw α := ⟨-(ui / 2), -(ui / 2), pa, 0⟩
/-- Line 235. -/
def point7 {α : Type} [OfNat α 0] (_ui pa : α) : PositionNedYaw α := ⟨0, 0, pa, 0⟩

/-! ## The program -/

/-- Leave `main` with `return code`. -/
def Config.halt (c : Config) (code : Nat) : Config := { c with exit_code := some code }

/-- Continue at another control point. -/
def Config.goto (c : Config) (pc : Pc) : Config := { c with pc := pc }

/-- Record interactions. -/
def Config.emit (c : Config) (es : List Event) : Config := { c with log := c.log ++ es }

/-- One basic block of `main`. A process that has exited does nothing. -/
def step (w : World) (c : Config) : Config :=
  match c.exit_code with
  | some _ => c
  | none =>
    match c.pc with
    | .check_argc =>
        if w.argc ≠ 4 then c.halt 1 else c.goto .parse_altitude
    | .parse_altitude =>
        match w.altitude_arg with
        | .value v => { c with altitude := v, pc := .parse_dimension }
        | .invalid_argument => c.halt 1
        | .out_of_range => c.halt 1
    | .parse_dimension =>
        match w.dimension_arg with
        | .value v => { c with pattern_dimension := v, pc := .add_any_connection }
        | .invalid_argument => c.halt 1
        | .out_of_range => c.halt 1
    | .add_any_connection =>
        if w.aircraft_result ≠ .Success then c.halt 1 else c.goto .first_autopilot
    | .first_autopilot =>
        if !w.system_found then c.halt 1 else c.goto .set_rate_position
    | .set_rate_position =>
        if w.set_rate_result ≠ .Success then c.halt 1 else c.goto .position_lock
    | .position_lock =>
        let ok := w.is_local_position_ok c.health_reads
        let c := { c with health_reads := c.health_reads + 1 }
        if ok ≠ true then c.emit [.health ok, .sleep_for 1]
        else (c.emit [.health ok]).goto .subscribe_message
    | .subscribe_message =>
        { c with subscribed := true, pc := .preflight, log := c.log ++ [.subscribe_message] }
    | .preflight =>
        let d1 := w.down_m c.position_reads
        if d1 < -safe_band then
          ({ c with position_reads := c.position_reads + 1 }.emit
            [.position_velocity_ned d1]).halt 1
        else
          let d2 := w.down_m (c.position_reads + 1)
          let c := { c with position_reads := c.position_reads + 2 }.emit
            [.position_velocity_ned d1, .position_velocity_ned d2]
          if d2 > safe_band then c.halt 1 else c.goto .set_takeoff_altitude
    | .set_takeoff_altitude =>
        let r := w.set_altitude_result
        let c := c.emit [.set_takeoff_altitude c.takeoff_altitude r]
        if r ≠ .Success then c.halt 1 else c.goto .arm
    | .arm =>
        let r := w.arm_result
        let c := c.emit [.arm r]
        if r ≠ .Success then c.halt 1 else c.goto .takeoff
    | .takeoff =>
        let r := w.takeoff_result
        let c := c.emit [.takeoff r]
        if r ≠ .Success then c.halt 1 else c.goto .climb
    | .climb =>
        let d1 := w.down_m c.position_reads
        if c.takeoff_altitude + d1 > climb_margin then
          let d2 := w.down_m (c.position_reads + 1)
          { c with position_reads := c.position_reads + 2 }.emit
            [.position_velocity_ned d1, .position_velocity_ned d2, .sleep_for 1]
        else
          ({ c with position_reads := c.position_reads + 1 }.emit
            [.position_velocity_ned d1]).goto .hover
    | .hover =>
        { c with retry_offboard_count := 3, pc := .offboard_retry,
                 log := c.log ++ [.sleep_for 5] }
    | .offboard_retry =>
        if c.retry_offboard_count > 0 then
          let r := w.offboard_result c.start_calls
          let c := { c with start_calls := c.start_calls + 1 }.emit
            [.set_velocity_ned stay, .start r]
          if r = .Success then c.goto .offboard_check
          else { c with retry_offboard_count := c.retry_offboard_count - 1,
                        log := c.log ++ [.sleep_for 2] }
        else c.goto .offboard_check
    | .offboard_check =>
        if c.retry_offboard_count = 0 then c.halt 1 else c.goto .hold_over_rx
    | .hold_over_rx =>
        let v := w.voltage_v c.battery_reads
        { c with battery_voltage := v, battery_reads := c.battery_reads + 1,
                 pc := .battery_hold,
                 log := c.log ++ [.set_position_ned (point1 c.ui c.pa), .sleep_for 15,
                                  .battery v] }
    | .battery_hold =>
        if c.battery_voltage < low_voltage then c.emit [.sleep_for 30]
        else c.goto .press_enter
    | .press_enter =>
        (c.emit [.getline]).goto .position_1
    | .position_1 =>
        (c.emit [.set_position_ned (point2 c.ui c.pa), .sleep_for 10]).goto .position_2
    | .position_2 =>
        (c.emit [.set_position_ned (point3 c.ui c.pa), .sleep_for 10]).goto .position_3
    | .position_3 =>
        (c.emit [.set_position_ned (point4 c.ui c.pa), .sleep_for 10]).goto .position_4
    | .position_4 =>
        (c.emit [.set_position_ned (point5 c.ui c.pa), .sleep_for 10]).goto .position_5
    | .position_5 =>
        (c.emit [.set_position_ned (point6 c.ui c.pa), .sleep_for 10]).goto .position_6
    | .position_6 =>
        (c.emit [.set_position_ned (point2 c.ui c.pa), .sleep_for 10]).goto .back_to_rx
    | .back_to_rx =>
        (c.emit [.set_position_ned (point7 c.ui c.pa)]).goto .hold_over_rx

/-- Run `main` for `n` basic blocks. -/
def runN (w : World) : Nat → Config → Config
  | 0, c => c
  | n + 1, c => runN w n (step w c)

/-- The heartbeat callback of lines 102..115: `exit(0)` when `custom_mode` is the
manual-takeover value.  It only runs once it has been registered and while the
process is alive. -/
def deliver (custom_mode : Nat) (c : Config) : Config :=
  match c.exit_code with
  | some _ => c
  | none =>
    if c.subscribed = true ∧ custom_mode = manual_mode then { c with exit_code := some 0 }
    else c

/-- What can happen next: `main` executes a block, or a heartbeat arrives. -/
inductive Action where
  | tick
  | heartbeat (custom_mode : Nat)
  deriving DecidableEq

/-- One scheduled action. -/
def act (w : World) (c : Config) : Action → Config
  | .tick => step w c
  | .heartbeat m => deliver m c

/-- Run a whole schedule. -/
def exec (w : World) (sched : List Action) (c : Config) : Config :=
  sched.foldl (act w) c

/-! ## Reading the log -/

/-- Calls on the action plugin. -/
def Event.isActionCall : Event → Bool
  | .set_takeoff_altitude _ _ => true
  | .arm _ => true
  | .takeoff _ => true
  | _ => false

/-- Calls on the offboard plugin. -/
def Event.isOffboardCall : Event → Bool
  | .set_velocity_ned _ => true
  | .start _ => true
  | .set_position_ned _ => true
  | _ => false

/-- Setpoints, of either kind. -/
def Event.isSetpoint : Event → Bool
  | .set_velocity_ned _ => true
  | .set_position_ned _ => true
  | _ => false

/-- What the negotiation loop of lines 172..189 sends: velocity setpoints and `start()`. -/
def Event.isNegotiation : Event → Bool
  | .set_velocity_ned _ => true
  | .start _ => true
  | _ => false

/-- Battery samples. -/
def Event.isBattery : Event → Bool
  | .battery _ => true
  | _ => false

/-- The calls made on the action plugin, in order. -/
def actionCalls (log : List Event) : List Event := log.filter Event.isActionCall

/-- The calls made on the offboard plugin, in order. -/
def offboardCalls (log : List Event) : List Event := log.filter Event.isOffboardCall

/-- The setpoints issued, in order. -/
def setpoints (log : List Event) : List Event := log.filter Event.isSetpoint

/-- The velocity setpoints and `start()` calls, in order. -/
def negotiation (log : List Event) : List Event := log.filter Event.isNegotiation

/-- The battery samples taken, in order. -/
def batterySamples (log : List Event) : List Event := log.filter Event.isBattery

/-- Position of a control point in program order; the pattern loop is one stage. -/
def Pc.rank : Pc → Nat
  | .check_argc => 0
  | .parse_altitude => 1
  | .parse_dimension => 2
  | .add_any_connection => 3
  | .first_autopilot => 4
  | .set_rate_position => 5
  | .position_lock => 6
  | .subscribe_message => 7
  | .preflight => 8
  | .set_takeoff_altitude => 9
  | .arm => 10
  | .takeoff => 11
  | .climb => 12
  | .hover => 13
  | .offboard_retry => 14
  | .offboard_check => 15
  | _ => 16

/-! ## Invariants of every reachable state -/

/-- Every position setpoint in the log comes after a `start()` that returned `Success`. -/
def PosGated (log : List Event) : Prop :=
  ∀ l1 l2 p, log = l1 ++ Event.set_position_ned p :: l2 → Event.start .Success ∈ l1

/-- Every velocity setpoint in the log is the zero setpoint `stay` and was sent while no
`start()` had yet returned `Success`. -/
def VelGated (log : List Event) : Prop :=
  ∀ l1 l2 v, log = l1 ++ Event.set_velocity_ned v :: l2 →
    v = stay ∧ Event.start .Success ∉ l1

/-- Facts that hold in every state the process can be in, whatever the world does and
whenever heartbeats arrive. -/
structure Inv (w : World) (c : Config) : Prop where
  argc : 1 ≤ c.pc.rank → w.argc = 4
  alt : 2 ≤ c.pc.rank → w.altitude_arg = .value c.altitude
  dim : 3 ≤ c.pc.rank → w.dimension_arg = .value c.pattern_dimension
  sub : 8 ≤ c.pc.rank → c.subscribed = true
  unsub : c.pc.rank ≤ 7 → c.subscribed = false
  no_action : c.pc.rank ≤ 8 ∨ (c.pc = .set_takeoff_altitude ∧ c.exit_code = none) →
    actionCalls c.log = []
  no_arm : c.pc.rank ≤ 9 → ∀ r, Event.arm r ∉ c.log
  no_offboard : c.pc.rank ≤ 13 →
    offboardCalls c.log = [] ∧ c.start_calls = 0 ∧ c.battery_reads = 0
  check : c.pc = .offboard_check →
    c.retry_offboard_count = 0 ∨ Event.start .Success ∈ c.log
  active : 16 ≤ c.pc.rank → Event.start .Success ∈ c.log
  gated : PosGated c.log
  waypoint : ∀ p, Event.set_position_ned p ∈ c.log → 16 ≤ c.pc.rank


/-! ## Timing of the setpoints -/

/-- Seconds slept from the head of a log until the next setpoint (or the end of the log). -/
def sleepUntilSetpoint : List Event → Nat
  | [] => 0
  | .sleep_for s :: es => s + sleepUntilSetpoint es
  | .set_position_ned _ :: _ => 0
  | .set_velocity_ned _ :: _ => 0
  | _ :: es => sleepUntilSetpoint es

/-- Every position setpoint of a log with its dwell: the seconds the program sleeps
after issuing it and before issuing the next setpoint. -/
def dwells : List Event → List (PositionNedYaw Fp × Nat)
  | [] => []
  | .set_position_ned p :: es => (p, sleepUntilSetpoint es) :: dwells es
  | _ :: es => dwells es

/-- What one pass through the body of `while (true)` (lines 202..264) does when the
battery sample `v` is not low. -/
def cycleEvents (takeoff_altitude ui v : Fp) : List Event :=
  [ .set_position_ned (point1 ui (-takeoff_altitude)), .sleep_for 15, .battery v, .getline,
    .set_position_ned (point2 ui (-takeoff_altitude)), .sleep_for 10,
    .set_position_ned (point3 ui (-takeoff_altitude)), .sleep_for 10,
    .set_position_ned (point4 ui (-takeoff_altitude)), .sleep_for 10,
    .set_position_ned (point5 ui (-takeoff_altitude)), .sleep_for 10,
    .set_position_ned (point6 ui (-takeoff_altitude)), .sleep_for 10,
    .set_position_ned (point2 ui (-takeoff_altitude)), .sleep_for 10,
    .set_position_ned (point7 ui (-takeoff_altitude)) ]

/-! ## The pattern as the specification words it (section 4.4) -/

namespace Spec

/-- Centre `C = (0, 0, -a)`, yaw 0. -/
def C {α : Type} [OfNat α 0] [Neg α] (a : α) : PositionNedYaw α := ⟨0, 0, -a, 0⟩
/-- Waypoint `W1 = (-d/2, 0, -a)`. -/
def W1 {α : Type} [OfNat α 0] [OfNat α 2] [Neg α] [Div α] (a d : α) : PositionNedYaw α :=
  ⟨-(d / 2), 0, -a, 0⟩
/-- Waypoint `W2 = (-d/2, d/2, -a)`. -/
def W2 {α : Type} [OfNat α 0] [OfNat α 2] [Neg α] [Div α] (a d : α) : PositionNedYaw α :=
  ⟨-(d / 2), d / 2, -a, 0⟩
/-- Waypoint `W3 = (d/2, d/2, -a)`. -/
def W3 {α : Type} [OfNat α 0] [OfNat α 2] [Neg α] [Div α] (a d : α) : PositionNedYaw α :=
  ⟨d / 2, d / 2, -a, 0⟩
/-- Waypoint `W4 = (d/2, -d/2, -a)`. -/
def W4 {α : Type} [OfNat α 0] [OfNat α 2] [Neg α] [Div α] (a d : α) : PositionNedYaw α :=
  ⟨d / 2, -(d / 2), -a, 0⟩
/-- Waypoint `W5 = (-d/2, -d/2, -a)`. -/
def W5 {α : Type} [OfNat α 0] [OfNat α 2] [Neg α] [Div α] (a d : α) : PositionNedYaw α :=
  ⟨-(d / 2), -(d / 2), -a, 0⟩

/-- One cycle: `C, W1, W2, W3, W4, W5, W1, C`. -/
def cycle {α : Type} [OfNat α 0] [OfNat α 2] [Neg α] [Div α] (a d : α) :
    List (PositionNedYaw α) :=
  [C a, W1 a d, W2 a d, W3 a d, W4 a d, W5 a d, W1 a d, C a]

/-- The n-th position setpoint of the endless pattern: element `n mod 8` of the cycle. -/
def pattern {α : Type} [OfNat α 0] [OfNat α 2] [Neg α] [Div α] (a d : α) (n : Nat) :
    PositionNedYaw α :=
  (cycle a d).getD (n % 8) (C a)

/-- The dwell after the n-th position setpoint: 15, 10, 10, 10, 10, 10, 10, 0 seconds. -/
def dwell (n : Nat) : Nat := [15, 10, 10, 10, 10, 10, 10, 0].getD (n % 8) 0

end Spec

/-- The `float` waypoint whose four members are exactly the given rationals. -/
def PositionNedYaw.toFp (p : PositionNedYaw ℚ) : PositionNedYaw Fp :=
  ⟨.finite p.north_m, .finite p.east_m, .finite p.down_m, .finite p.yaw_deg⟩

/-! ## Sample worlds -/

/-- The fully cooperative vehicle of the end-to-end scenario: altitude 4.0, dimension
3.0, position lock at once, the vehicle on the ground before take-off and at the target
altitude at the first climb check, every request acknowledged, constant 12.0 V. -/
def cooperative : World :=
  { argc := 4, altitude_arg := .value (.finite 4), dimension_arg := .value (.finite 3),
    aircraft_result := .Success, system_found := true, set_rate_result := .Success,
    is_local_position_ok := fun _ => true,
    down_m := fun n => if n < 2 then .finite 0 else .finite (-4),
    set_altitude_result := .Success, arm_result := .Success, takeoff_result := .Success,
    offboard_result := fun _ => .Success,
    voltage_v := fun _ => .finite 12 }

/-- As `cooperative`, but the position telemetry still holds NaN, the value MAVSDK
reports before the first position message, at the two reads of the preflight check. -/
def nanPosition : World :=
  { cooperative with down_m := fun n => if n < 2 then .nan else .finite (-4) }

/-- As `cooperative`, but the down coordinate reads 0.3f at the first read of the
preflight check and -0.3f at the second: the telemetry is refreshed between the two
calls of line 122. -/
def tornRead : World :=
  { cooperative with
    down_m := fun n =>
      [Fp.finite (5033165 / 16777216), Fp.finite (-5033165 / 16777216)].getD n
        (.finite (-4)) }

/-- As `cooperative`, but the vehicle refuses to arm. -/
def armRejected : World := { cooperative with arm_result := .Other 5 }

/-- As `cooperative`, but `start()` fails twice before it succeeds. -/
def thirdTimeLucky : World :=
  { cooperative with offboard_result := fun n => if n < 2 then .Other 8 else .Success }

/-- As `cooperative`, but `start()` never succeeds. -/
def offboardDenied : World := { cooperative with offboard_result := fun _ => .Other 8 }

/-- As `cooperative`, but the battery reads 6.5 V, then 6.9 V, then 7.1 V from the third
sample on (the `float`s nearest to 6.9 and 7.1). -/
def lowBattery : World :=
  { cooperative with
    voltage_v := fun n =>
      [Fp.finite (13 / 2), Fp.finite (14470349 / 2097152),
        Fp.finite (14889779 / 2097152)].getD n (.finite (14889779 / 2097152)) }

/-- As `cooperative`, but the command line gives dimension -3. -/
def negativeDimension : World :=
  { cooperative with dimension_arg := .value (.finite (-3)) }

/-- As `cooperative`, but the command line gives altitude -1 and dimension -3. -/
def negativeArguments : World :=
  { cooperative with
    altitude_arg := .value (.finite (-1)), dimension_arg := .value (.finite (-3)) }

/-- As `cooperative`, but the position lock is only there at the third poll. -/
def lateLock : World :=
  { cooperative with is_local_position_ok := fun n => decide (2 ≤ n) }

/-- The process reaches the lock wait and polls once (seven blocks), a heartbeat with
the manual-takeover mode arrives, and `main` runs seven more blocks. -/
def heartbeatDuringLockWait : List Action :=
  [.tick, .tick, .tick, .tick, .tick, .tick, .tick, .heartbeat 196608,
   .tick, .tick, .tick, .tick, .tick, .tick, .tick]

/-- The process gets as far as the preflight check (eight blocks) and a heartbeat with the
manual-takeover mode arrives. -/
def heartbeatBeforePreflight : List Action :=
  [.tick, .tick, .tick, .tick, .tick, .tick, .tick, .tick, .heartbeat 196608]

/-- The first cycle of the pattern is under way (twenty blocks) when a heartbeat with the
manual-takeover mode arrives; five more blocks of `main` are scheduled after it. -/
def heartbeatDuringPattern : List Action :=
  List.replicate 20 .tick ++ [.heartbeat 196608] ++ List.replicate 5 .tick

/-- As `cooperative`, but started with one argument too few. -/
def missingArgument : World := { cooperative with argc := 3 }

/-- As `cooperative`, but the command line gives `0.1` for both numbers: `std::stod`
returns the `double` nearest to one tenth, and the vehicle stays on the ground. -/
def tenthOfAMetre : World :=
  { cooperative with
    altitude_arg := .value (.finite (3602879701896397 / 36028797018963968)),
    dimension_arg := .value (.finite (3602879701896397 / 36028797018963968)),
    down_m := fun _ => .finite 0 }

/-! ## Floating point: how the operations evaluate -/

namespace Fp

@[simp] theorem finite_lt_finite (a b : ℚ) : (finite a < finite b) ↔ a < b := by
  show lt (finite a) (finite b) = true ↔ a < b
  simp [lt]

@[simp] theorem finite_le_finite (a b : ℚ) : (finite a ≤ finite b) ↔ a ≤ b := by
  show le (finite a) (finite b) = true ↔ a ≤ b
  simp [le]

@[simp] theorem not_nan_lt (x : Fp) : ¬(nan < x) := by
  show ¬(lt nan x = true)
  simp [lt]

@[simp] theorem not_lt_nan (x : Fp) : ¬(x < nan) := by
  show ¬(lt x nan = true)
  cases x <;> simp [lt]

@[simp] theorem neg_finite (q : ℚ) : -(finite q) = finite (-q) := rfl

@[simp] theorem neg_nan : -nan = nan := rfl

@[simp] theorem finite_add_finite (a b : ℚ) : finite a + finite b = round32 (a + b) := rfl

@[simp] theorem narrow_finite (q : ℚ) : narrow (finite q) = round32 q := rfl

@[simp] theorem narrow_nan : narrow nan = nan := rfl

theorem ofNat_eq (n : Nat) : (OfNat.ofNat n : Fp) = finite n := rfl

@[simp] theorem zero_eq : (0 : Fp) = finite 0 := by
  rw [ofNat_eq]; simp

theorem finite_div_two (q : ℚ) : finite q / 2 = round32 (q / 2) := by
  show div (finite q) (finite ((2 : ℕ) : ℚ)) = round32 (q / 2)
  simp [div]

theorem not_lt_of_le {a b : Fp} (h : a ≤ b) : ¬(b < a) := by
  revert h
  show le a b = true → ¬(lt b a = true)
  cases a <;> cases b <;> simp [le, lt]
  rename_i n m
  cases n <;> cases m <;> simp

theorem roundHalfEven_intCast (m : ℤ) : roundHalfEven (m : ℚ) = m := by
  simp [roundHalfEven]

theorem quantum_eq (q : ℚ) (k : ℤ) (h1 : (2 : ℚ) ^ k ≤ |q|) (h2 : |q| < (2 : ℚ) ^ (k + 1))
    (hlo : -126 ≤ k) : quantum q = k - 23 := by
  have hpos : (0 : ℚ) < |q| := lt_of_lt_of_le (by positivity) h1
  have hle : k ≤ Int.log 2 |q| :=
    (Int.zpow_le_iff_le_log (by norm_num) hpos).mp (by exact_mod_cast h1)
  have hlt : Int.log 2 |q| < k + 1 :=
    (Int.lt_zpow_iff_log_lt (by norm_num) hpos).mp (by exact_mod_cast h2)
  have : Int.log 2 |q| = k := by omega
  rw [quantum, this]
  omega

/-- Rounding a value between `2^k` and `2^(k+1)`: scale by the last place, round to
the nearest integer, scale back. -/
theorem round32_eval (q : ℚ) (k n : ℤ) (h1 : (2 : ℚ) ^ k ≤ |q|) (h2 : |q| < (2 : ℚ) ^ (k + 1))
    (hlo : -126 ≤ k) (hn : roundHalfEven (q / 2 ^ (k - 23)) = n)
    (hfin : |(n : ℚ) * 2 ^ (k - 23)| < 2 ^ (128 : ℤ)) :
    round32 q = finite (n * 2 ^ (k - 23)) := by
  simp only [round32, quantum_eq q k h1 h2 hlo, hn]
  rw [if_neg (not_le.mpr hfin)]

/-- A value with at most 24 significant bits in the normal range rounds to itself. -/
theorem round32_exact (q : ℚ) (k m : ℤ) (h1 : (2 : ℚ) ^ k ≤ |q|) (h2 : |q| < (2 : ℚ) ^ (k + 1))
    (hlo : -126 ≤ k) (hhi : k ≤ 127) (hm : q = m * 2 ^ (k - 23)) : round32 q = finite q := by
  have hq : q / 2 ^ (k - 23) = m := by
    rw [hm]; field_simp
  have h128 : (2 : ℚ) ^ (k + 1) ≤ 2 ^ (128 : ℤ) :=
    zpow_le_zpow_right₀ (by norm_num) (by omega)
  have := round32_eval q k m h1 h2 hlo (by rw [hq, roundHalfEven_intCast])
    (by rw [← hm]; exact lt_of_lt_of_le h2 h128)
  rw [this, ← hm]

theorem round32_zero : round32 0 = finite 0 := by
  simp [round32, roundHalfEven]
  positivity

theorem round32_four : round32 4 = finite 4 :=
  round32_exact 4 2 8388608 (by norm_num [abs_of_pos]) (by norm_num [abs_of_pos])
    (by norm_num) (by norm_num) (by norm_num)

theorem round32_three : round32 3 = finite 3 :=
  round32_exact 3 1 12582912 (by norm_num [abs_of_pos]) (by norm_num [abs_of_pos])
    (by norm_num) (by norm_num) (by norm_num)

theorem round32_three_halves : round32 (3 / 2) = finite (3 / 2) :=
  round32_exact (3 / 2) 0 12582912 (by norm_num [abs_of_pos]) (by norm_num [abs_of_pos])
    (by norm_num) (by norm_num) (by norm_num)

theorem round32_neg_one : round32 (-1) = finite (-1) :=
  round32_exact (-1) 0 (-8388608) (by norm_num) (by norm_num)
    (by norm_num) (by norm_num) (by norm_num)

theorem round32_neg_five : round32 (-5) = finite (-5) :=
  round32_exact (-5) 2 (-10485760) (by norm_num [abs_of_neg]) (by norm_num [abs_of_neg])
    (by norm_num) (by norm_num) (by norm_num)

/-- The `float` nearest to the `double` nearest to one tenth. -/
theorem round32_tenth :
    round32 (3602879701896397 / 36028797018963968) = finite (13421773 / 134217728) := by
  have hfl : ⌊(3602879701896397 / 268435456 : ℚ)⌋ = 13421772 := by
    rw [Int.floor_eq_iff]; norm_num
  have := round32_eval (3602879701896397 / 36028797018963968) (-4) 13421773
    (by norm_num [abs_of_pos]) (by norm_num [abs_of_pos]) (by norm_num)
    (by
      have e : (3602879701896397 / 36028797018963968 : ℚ) / 2 ^ ((-4 : ℤ) - 23) =
          3602879701896397 / 268435456 := by norm_num
      rw [e]
      simp only [roundHalfEven, hfl]
      norm_num)
    (by norm_num [abs_of_pos])
  rw [this]; norm_num

theorem round32_float_tenth :
    round32 (13421773 / 134217728) = finite (13421773 / 134217728) :=
  round32_exact (13421773 / 134217728) (-4) 13421773 (by norm_num [abs_of_pos])
    (by norm_num [abs_of_pos]) (by norm_num) (by norm_num) (by norm_num)

end Fp

/-! ## Basic facts about running -/

theorem step_of_exited (w : World) (c : Config) (k : Nat) (h : c.exit_code = some k) :
    step w c = c := by
  unfold step; simp [h]

theorem runN_of_exited (w : World) (n : Nat) (c : Config) (k : Nat)
    (h : c.exit_code = some k) : runN w n c = c := by
  induction n with
  | zero => rfl
  | succ n ih => simp [runN, step_of_exited w c k h, ih]

theorem runN_add (w : World) (m n : Nat) (c : Config) :
    runN w (m + n) c = runN w n (runN w m c) := by
  induction m generalizing c with
  | zero => simp [runN]
  | succ m ih => rw [Nat.succ_add]; simp [runN, ih]

theorem runN_succ (w : World) (n : Nat) (c : Config) :
    runN w (n + 1) c = step w (runN w n c) := by
  rw [runN_add]; rfl

theorem rank_step (w : World) (c : Config) : c.pc.rank ≤ (step w c).pc.rank := by
  obtain ⟨pc, ec, a, d, r, v, s, hr, pr, br, sc, log⟩ := c
  cases ec with
  | some k => simp [step]
  | none =>
    cases pc <;> simp only [step, Config.halt, Config.goto, Config.emit] <;>
      (try split) <;> (try split_ifs) <;> simp [Pc.rank]

/-! ## The invariants hold -/

theorem posGated_nil : PosGated [] := by
  intro l1 l2 p h
  simp at h

theorem posGated_append {log es : List Event} (h : PosGated log)
    (hes : (∀ p, Event.set_position_ned p ∉ es) ∨ Event.start .Success ∈ log) :
    PosGated (log ++ es) := by
  intro l1 l2 p heq
  rcases List.append_eq_append_iff.mp heq with ⟨a, rfl, h2⟩ | ⟨b, rfl, h2⟩
  · rcases hes with hes | hes
    · exact absurd (by rw [h2]; simp) (hes p)
    · exact List.mem_append_left _ hes
  · cases b with
    | nil =>
      rcases hes with hes | hes
      · simp only [List.nil_append] at h2
        exact absurd (by rw [← h2]; simp) (hes p)
      · simpa using hes
    | cons x b =>
      simp only [List.cons_append, List.cons.injEq] at h2
      obtain ⟨rfl, -⟩ := h2
      exact h l1 b p rfl

theorem inv_init (w : World) : Inv w init := by
  constructor <;> simp [init, Pc.rank, actionCalls, offboardCalls, posGated_nil]

theorem inv_deliver {w : World} {c : Config} (m : Nat) (h : Inv w c) : Inv w (deliver m c) := by
  unfold deliver
  split
  · exact h
  · split_ifs
    · obtain ⟨h1, h2, h3, h4, h5, h6, h7, h8, h9, h10, h11, h12⟩ := h
      constructor <;> first | assumption | skip
      intro hx; apply h6; rcases hx with hx | hx
      · exact Or.inl hx
      · simp at hx
    · exact h

theorem inv_step_args {w : World} {c : Config} (h : Inv w c) :
    (1 ≤ (step w c).pc.rank → w.argc = 4) ∧
    (2 ≤ (step w c).pc.rank → w.altitude_arg = .value (step w c).altitude) ∧
    (3 ≤ (step w c).pc.rank → w.dimension_arg = .value (step w c).pattern_dimension) := by
  obtain ⟨pc, ec, a, d, r, v, s, hr, pr, br, sc, log⟩ := c
  obtain ⟨h1, h2, h3, -, -, -, -, -, -, -, -, -⟩ := h
  cases ec with
  | some k => simpa [step] using And.intro h1 (And.intro h2 h3)
  | none =>
    cases pc <;> simp only [step, Config.halt, Config.goto, Config.emit] <;>
      (try split) <;> (try split_ifs) <;> simp_all [Pc.rank]

theorem inv_step_sub {w : World} {c : Config} (h : Inv w c) :
    (8 ≤ (step w c).pc.rank → (step w c).subscribed = true) ∧
    ((step w c).pc.rank ≤ 7 → (step w c).subscribed = false) := by
  obtain ⟨pc, ec, a, d, r, v, s, hr, pr, br, sc, log⟩ := c
  obtain ⟨-, -, -, h4, h5, -, -, -, -, -, -, -⟩ := h
  cases ec with
  | some k => simpa [step] using And.intro h4 h5
  | none =>
    cases pc <;> simp only [step, Config.halt, Config.goto, Config.emit] <;>
      (try split) <;> (try split_ifs) <;> simp_all [Pc.rank]

theorem inv_step_action {w : World} {c : Config} (h : Inv w c) :
    ((step w c).pc.rank ≤ 8 ∨
        ((step w c).pc = .set_takeoff_altitude ∧ (step w c).exit_code = none) →
      actionCalls (step w c).log = []) ∧
    ((step w c).pc.rank ≤ 9 → ∀ r, Event.arm r ∉ (step w c).log) := by
  obtain ⟨pc, ec, a, d, r, v, s, hr, pr, br, sc, log⟩ := c
  obtain ⟨-, -, -, -, -, h6, h7, -, -, -, -, -⟩ := h
  cases ec with
  | some k => simpa [step] using And.intro h6 h7
  | none =>
    cases pc <;> simp only [step, Config.halt, Config.goto, Config.emit] <;>
      (try split) <;> (try split_ifs) <;>
      simp_all [Pc.rank, actionCalls, Event.isActionCall]

theorem inv_step_offboard {w : World} {c : Config} (h : Inv w c) :
    ((step w c).pc.rank ≤ 13 →
      offboardCalls (step w c).log = [] ∧ (step w c).start_calls = 0 ∧
        (step w c).battery_reads = 0) ∧
    ((step w c).pc = .offboard_check →
      (step w c).retry_offboard_count = 0 ∨ Event.start .Success ∈ (step w c).log) ∧
    (16 ≤ (step w c).pc.rank → Event.start .Success ∈ (step w c).log) := by
  obtain ⟨pc, ec, a, d, r, v, s, hr, pr, br, sc, log⟩ := c
  obtain ⟨-, -, -, -, -, -, -, h8, h9, h10, -, -⟩ := h
  cases ec with
  | some k => simpa [step] using And.intro h8 (And.intro h9 h10)
  | none =>
    cases pc <;> simp only [step, Config.halt, Config.goto, Config.emit] <;>
      (try split) <;> (try split_ifs) <;>
      simp_all [Pc.rank, offboardCalls, Event.isOffboardCall]

theorem inv_step_gated {w : World} {c : Config} (h : Inv w c) :
    PosGated (step w c).log := by
  obtain ⟨pc, ec, a, d, r, v, s, hr, pr, br, sc, log⟩ := c
  obtain ⟨-, -, -, -, -, -, -, -, -, h10, h11, -⟩ := h
  cases ec with
  | some k => simpa [step] using h11
  | none =>
    cases pc <;> simp only [step, Config.halt, Config.goto, Config.emit, List.append_assoc] <;>
      (try split) <;> (try split_ifs) <;>
      first
      | exact h11
      | (apply posGated_append h11
         simp_all [Pc.rank])

theorem inv_step_waypoint {w : World} {c : Config} (h : Inv w c) :
    ∀ p, Event.set_position_ned p ∈ (step w c).log → 16 ≤ (step w c).pc.rank := by
  obtain ⟨pc, ec, a, d, r, v, s, hr, pr, br, sc, log⟩ := c
  obtain ⟨-, -, -, -, -, -, -, -, -, -, -, h12⟩ := h
  cases ec with
  | some k => simpa [step] using h12
  | none =>
    cases pc <;> simp only [step, Config.halt, Config.goto, Config.emit] <;>
      (try split) <;> (try split_ifs) <;>
      simp_all [Pc.rank]

theorem inv_step {w : World} {c : Config} (h : Inv w c) : Inv w (step w c) :=
  ⟨(inv_step_args h).1, (inv_step_args h).2.1, (inv_step_args h).2.2,
   (inv_step_sub h).1, (inv_step_sub h).2,
   (inv_step_action h).1, (inv_step_action h).2,
   (inv_step_offboard h).1, (inv_step_offboard h).2.1, (inv_step_offboard h).2.2,
   inv_step_gated h, inv_step_waypoint h⟩

theorem inv_runN (w : World) (n : Nat) : Inv w (runN w n init) := by
  induction n with
  | zero => exact inv_init w
  | succ n ih => rw [runN_succ]; exact inv_step ih

theorem inv_act {w : World} {c : Config} (a : Action) (h : Inv w c) : Inv w (act w c a) := by
  cases a with
  | tick => exact inv_step h
  | heartbeat m => exact inv_deliver m h

theorem inv_exec_from {w : World} (sched : List Action) (c : Config) (h : Inv w c) :
    Inv w (exec w sched c) := by
  induction sched generalizing c with
  | nil => exact h
  | cons a sched ih => exact ih _ (inv_act a h)

theorem inv_exec (w : World) (sched : List Action) : Inv w (exec w sched init) :=
  inv_exec_from sched init (inv_init w)

/-! ## Waypoint geometry -/

theorem cycle_run (w : World) (c : Config) (hpc : c.pc = .hold_over_rx)
    (hrun : c.exit_code = none) (hv : ¬(w.voltage_v c.battery_reads < low_voltage)) :
    runN w 10 c =
      { c with battery_voltage := w.voltage_v c.battery_reads,
               battery_reads := c.battery_reads + 1,
               log := c.log ++ cycleEvents c.takeoff_altitude c.ui
                        (w.voltage_v c.battery_reads) } := by
  obtain ⟨pc, ec, a, d, r, v, s, hr, pr, br, sc, log⟩ := c
  simp only at hpc hrun hv
  subst hpc hrun
  simp [runN, step, Config.goto, Config.emit, Config.ui, Config.pa,
    Config.takeoff_altitude, cycleEvents, hv]

theorem cycles_run (w : World) (hv : ∀ i, ¬(w.voltage_v i < low_voltage)) (K : Nat) :
    ∀ c : Config, c.pc = .hold_over_rx → c.exit_code = none →
      (runN w (10 * K) c).pc = .hold_over_rx ∧ (runN w (10 * K) c).exit_code = none ∧
      (runN w (10 * K) c).log = c.log ++
        (List.range K).flatMap (fun i =>
          cycleEvents c.takeoff_altitude c.ui (w.voltage_v (c.battery_reads + i))) := by
  induction K with
  | zero => intro c hpc hrun; simp [runN, hpc, hrun]
  | succ K ih =>
    intro c hpc hrun
    have h10 := cycle_run w c hpc hrun (hv _)
    have hsplit : 10 * (K + 1) = 10 + 10 * K := by ring
    obtain ⟨h1, h2, h3⟩ := ih (runN w 10 c) (by rw [h10]; exact hpc) (by rw [h10]; exact hrun)
    rw [hsplit, runN_add]
    refine ⟨h1, h2, ?_⟩
    rw [h3, h10]
    simp [List.range_succ_eq_map, List.flatMap_cons, List.flatMap_map, Nat.add_assoc,
      Nat.add_comm 1, Config.takeoff_altitude, Config.ui]

theorem quiet_of_no_offboard {l : List Event} (h : offboardCalls l = []) :
    setpoints l = [] ∧ negotiation l = [] ∧ ∀ p, Event.set_position_ned p ∉ l := by
  simp only [offboardCalls, setpoints, negotiation, List.filter_eq_nil_iff] at h ⊢
  refine ⟨?_, ?_, ?_⟩
  · intro e he hs
    apply h e he
    cases e <;> simp_all [Event.isSetpoint, Event.isOffboardCall]
  · intro e he hs
    apply h e he
    cases e <;> simp_all [Event.isNegotiation, Event.isOffboardCall]
  · intro p hp
    exact h _ hp (by simp [Event.isOffboardCall])

theorem sleepUntilSetpoint_append (l1 l2 : List Event) (p : PositionNedYaw Fp) :
    sleepUntilSetpoint (l1 ++ Event.set_position_ned p :: l2) = sleepUntilSetpoint l1 := by
  induction l1 with
  | nil => simp [sleepUntilSetpoint]
  | cons e l1 ih => cases e <;> simp [sleepUntilSetpoint, ih]

theorem dwells_append_position (l1 l2 : List Event) (p : PositionNedYaw Fp) :
    dwells (l1 ++ Event.set_position_ned p :: l2) =
      dwells l1 ++ dwells (Event.set_position_ned p :: l2) := by
  induction l1 with
  | nil => simp [dwells]
  | cons e l1 ih => cases e <;> simp [dwells, ih, sleepUntilSetpoint_append]

theorem dwells_append_quiet (l1 l2 : List Event)
    (h : ∀ p, Event.set_position_ned p ∉ l1) : dwells (l1 ++ l2) = dwells l2 := by
  induction l1 with
  | nil => simp
  | cons e l1 ih =>
    have ih := ih (fun p hp => h p (List.mem_cons_of_mem _ hp))
    cases e with
    | set_position_ned q => exact absurd (List.mem_cons_self _ _) (h q)
    | _ => simpa [dwells] using ih

/-- The points of lines 207..235 are the waypoints of the specification, taken at the
`float` values of `takeoff_altitude` and `ui`. -/
theorem point_eq_spec (ta ui : Fp) :
    point1 ui (-ta) = Spec.C ta ∧ point2 ui (-ta) = Spec.W1 ta ui ∧
    point3 ui (-ta) = Spec.W2 ta ui ∧ point4 ui (-ta) = Spec.W3 ta ui ∧
    point5 ui (-ta) = Spec.W4 ta ui ∧ point6 ui (-ta) = Spec.W5 ta ui ∧
    point7 ui (-ta) = Spec.C ta :=
  ⟨rfl, rfl, rfl, rfl, rfl, rfl, rfl⟩

theorem range_eight (K : Nat) :
    List.range (8 * (K + 1)) =
      List.range (8 * K) ++
        [8 * K, 8 * K + 1, 8 * K + 2, 8 * K + 3, 8 * K + 4, 8 * K + 5, 8 * K + 6, 8 * K + 7] := by
  have h : 8 * (K + 1) = 8 * K + 1 + 1 + 1 + 1 + 1 + 1 + 1 + 1 := by ring
  rw [h]
  simp only [List.range_succ, List.append_assoc, List.singleton_append, List.cons_append,
    List.nil_append, Nat.add_assoc]

theorem setpoints_cycles (ta ui : Fp) (v : Nat → Fp) (K : Nat) :
    setpoints ((List.range K).flatMap (fun i => cycleEvents ta ui (v i))) =
      (List.range (8 * K)).map (fun n => Event.set_position_ned (Spec.pattern ta ui n)) := by
  obtain ⟨e1, e2, e3, e4, e5, e6, e7⟩ := point_eq_spec ta ui
  induction K with
  | zero => simp [setpoints]
  | succ K ih =>
    rw [range_eight, List.range_succ, List.flatMap_append, List.map_append]
    simp only [setpoints, List.filter_append] at ih ⊢
    rw [ih]
    simp [cycleEvents, Event.isSetpoint, Spec.pattern, Spec.cycle, Nat.mul_add_mod, e1, e2, e3,
      e4, e5, e6, e7]

theorem dwells_cycles (ta ui : Fp) (v : Nat → Fp) (K : Nat) :
    dwells ((List.range K).flatMap (fun i => cycleEvents ta ui (v i))) =
      (List.range (8 * K)).map (fun n => (Spec.pattern ta ui n, Spec.dwell n)) := by
  obtain ⟨e1, e2, e3, e4, e5, e6, e7⟩ := point_eq_spec ta ui
  induction K with
  | zero => simp [dwells]
  | succ K ih =>
    rw [range_eight, List.range_succ, List.flatMap_append, List.map_append]
    have hc : (List.flatMap [K] fun i => cycleEvents ta ui (v i)) =
        Event.set_position_ned (point1 ui (-ta)) :: (cycleEvents ta ui (v K)).tail := by
      simp [cycleEvents]
    rw [hc, dwells_append_position, ih]
    simp [cycleEvents, dwells, sleepUntilSetpoint, Spec.pattern, Spec.dwell, Spec.cycle,
      Nat.mul_add_mod, e1, e2, e3, e4, e5, e6, e7]

theorem negotiate_first (w : World) (c : Config) (hpc : c.pc = .hover)
    (hrun : c.exit_code = none) (hs : w.offboard_result c.start_calls = .Success) :
    runN w 3 c =
      { c with pc := .hold_over_rx, retry_offboard_count := 3,
               start_calls := c.start_calls + 1,
               log := c.log ++ [.sleep_for 5, .set_velocity_ned stay, .start .Success] } := by
  obtain ⟨pc, ec, a, d, r, v, s, hr, pr, br, sc, log⟩ := c
  simp only at hpc hrun hs
  subst hpc hrun
  simp [runN, step, Config.goto, Config.emit, Config.halt, hs]

/-- C5, as stated, fails: with `0.1` on the command line for both numbers the parsed
altitude is the `double` nearest to one tenth, but the first position setpoint is sent at
down = -0.1f, the `float` nearest to it, and not at minus the parsed altitude as the
claim's `C` has it: line 129 narrows the altitude to `float`. -/
theorem pattern_setpoint_counterexample :
    tenthOfAMetre.altitude_arg = .value (.finite (3602879701896397 / 36028797018963968)) ∧
      tenthOfAMetre.dimension_arg = .value (.finite (3602879701896397 / 36028797018963968)) ∧
      tenthOfAMetre.offboard_result 0 = .Success ∧
      (∀ i, low_voltage ≤ tenthOfAMetre.voltage_v i) ∧
      setpoints (runN tenthOfAMetre 17 init).log =
        [Event.set_velocity_ned stay,
         Event.set_position_ned (PositionNedYaw.toFp ⟨0, 0, -(13421773 / 134217728), 0⟩)] ∧
      Event.set_position_ned (PositionNedYaw.toFp ⟨0, 0, -(13421773 / 134217728), 0⟩) ≠
        Event.set_position_ned
          (Spec.pattern (Fp.finite (3602879701896397 / 36028797018963968))
            (Fp.finite (3602879701896397 / 36028797018963968)) 0) := by
  refine ⟨rfl, rfl, rfl, ?_, ?_, ?_⟩
  · intro i
    norm_num [tenthOfAMetre, cooperative, low_voltage]
  · norm_num [runN, step, init, tenthOfAMetre, cooperative, Config.goto, Config.emit,
      Config.halt, Config.takeoff_altitude, Config.ui, Config.pa, safe_band, climb_margin,
      point1, setpoints, Event.isSetpoint, PositionNedYaw.toFp, Fp.round32_tenth,
      Fp.round32_float_tenth]
    exact Fp.zero_eq
  · norm_num [PositionNedYaw.toFp, Spec.pattern, Spec.cycle, Spec.C]

/-- C5, amended: in a run that reaches the hover before offboard negotiation (at step
`T`), let `a` and `d` be the values of the `float` variables `takeoff_altitude` and `ui`,
that is the parsed altitude and dimension narrowed to single precision.  If the first
`start()` succeeds and every voltage sample is at least 7.0 V (no heartbeat interferes:
the run is `main` alone), then after `K` full cycles the setpoints issued are exactly
one zero-velocity setpoint followed by the position setpoints `pattern a d 0, ..,
pattern a d (8K - 1)`, the n-th being element `n mod 8` of `[C, W1, W2, W3, W4, W5, W1,
C]` with `d / 2` the single-precision quotient; the dwell after the n-th is element
`n mod 8` of `15, 10, 10, 10, 10, 10, 10, 0` seconds; and the process is alive at the
top of the loop, so the sequence continues for every `K`. -/
theorem pattern_setpoint_sequence (w : World) (T : Nat) (altitude pattern_dimension : Fp)
    (hA : w.altitude_arg = .value altitude) (hD : w.dimension_arg = .value pattern_dimension)
    (hpc : (runN w T init).pc = .hover) (hrun : (runN w T init).exit_code = none)
    (hstart : w.offboard_result 0 = .Success)
    (hvolt : ∀ i, low_voltage ≤ w.voltage_v i) (K : Nat) :
    setpoints (runN w (T + 3 + 10 * K) init).log =
        Event.set_velocity_ned stay ::
          (List.range (8 * K)).map (fun n =>
            Event.set_position_ned
              (Spec.pattern (Fp.narrow altitude) (Fp.narrow pattern_dimension) n)) ∧
      dwells (runN w (T + 3 + 10 * K) init).log =
        (List.range (8 * K)).map (fun n =>
          (Spec.pattern (Fp.narrow altitude) (Fp.narrow pattern_dimension) n,
            Spec.dwell n)) ∧
      (runN w (T + 3 + 10 * K) init).pc = .hold_over_rx ∧
      (runN w (T + 3 + 10 * K) init).exit_code = none := by
  have hinv := inv_runN w T
  obtain ⟨hoff, hsc, hbr⟩ := hinv.no_offboard (by rw [hpc]; simp [Pc.rank])
  have halt := hinv.alt (by rw [hpc]; simp [Pc.rank])
  have hdim := hinv.dim (by rw [hpc]; simp [Pc.rank])
  rw [hA] at halt
  rw [hD] at hdim
  simp only [StodResult.value.injEq] at halt hdim
  obtain ⟨hq1, -, hq3⟩ := quiet_of_no_offboard hoff
  have h3 := negotiate_first w (runN w T init) hpc hrun (by rw [hsc]; exact hstart)
  have hK := cycles_run w (fun i => Fp.not_lt_of_le (hvolt i)) K (runN w 3 (runN w T init))
    (by rw [h3]) (by rw [h3]; exact hrun)
  have hta : (runN w 3 (runN w T init)).takeoff_altitude = Fp.narrow altitude := by
    rw [h3]; simp only [Config.takeoff_altitude]; rw [← halt]
  have hui : (runN w 3 (runN w T init)).ui = Fp.narrow pattern_dimension := by
    rw [h3]; simp only [Config.ui]; rw [← hdim]
  rw [runN_add, runN_add]
  obtain ⟨k1, k2, k3⟩ := hK
  rw [hta, hui] at k3
  refine ⟨?_, ?_, k1, k2⟩
  · rw [k3, h3]
    simp only [setpoints, List.filter_append] at hq1 ⊢
    rw [hq1]
    have := setpoints_cycles (Fp.narrow altitude) (Fp.narrow pattern_dimension)
      (fun i => w.voltage_v ((runN w T init).battery_reads + i)) K
    simp only [setpoints] at this
    rw [this]
    simp [Event.isSetpoint]
  · rw [k3, h3]
    simp only [List.append_assoc]
    rw [dwells_append_quiet _ _ hq3]
    have := dwells_cycles (Fp.narrow altitude) (Fp.narrow pattern_dimension)
      (fun i => w.voltage_v ((runN w T init).battery_reads + i)) K
    simp [dwells, this]

/-- C5 at altitude 4.0 and dimension 3.0 with the cooperative vehicle (4.0, 3.0 and 1.5
are `float`s, so nothing is rounded): the first two cycles are the zero-velocity
setpoint and then twice the eight positions of the specification's end-to-end
scenario, with the dwells 15, 10, 10, 10, 10, 10, 10, 0. -/
theorem pattern_setpoint_sequence_witness :
    setpoints (runN cooperative (13 + 3 + 10 * 2) init).log =
        Event.set_velocity_ned stay ::
          ((List.replicate 2
            [⟨0, 0, -4, 0⟩, ⟨-(3 / 2), 0, -4, 0⟩, ⟨-(3 / 2), 3 / 2, -4, 0⟩,
             ⟨3 / 2, 3 / 2, -4, 0⟩, ⟨3 / 2, -(3 / 2), -4, 0⟩, ⟨-(3 / 2), -(3 / 2), -4, 0⟩,
             ⟨-(3 / 2), 0, -4, 0⟩, ⟨0, 0, -4, 0⟩]).flatten.map
            (fun p => Event.set_position_ned (PositionNedYaw.toFp p))) ∧
      (dwells (runN cooperative (13 + 3 + 10 * 2) init).log).map Prod.snd =
        [15, 10, 10, 10, 10, 10, 10, 0, 15, 10, 10, 10, 10, 10, 10, 0] := by
  have h := pattern_setpoint_sequence cooperative 13 (.finite 4) (.finite 3) rfl rfl
    (by norm_num [runN, step, init, cooperative, Config.goto, Config.emit, Config.halt,
          Config.takeoff_altitude, safe_band, climb_margin, Fp.round32_four,
          Fp.round32_zero])
    (by norm_num [runN, step, init, cooperative, Config.goto, Config.emit, Config.halt,
          Config.takeoff_altitude, safe_band, climb_margin, Fp.round32_four,
          Fp.round32_zero])
    rfl (by intro i; norm_num [cooperative, low_voltage]) 2
  constructor
  · rw [h.1]
    simp [List.range_succ, Spec.pattern, Spec.cycle, Spec.C, Spec.W1, Spec.W2, Spec.W3,
      Spec.W4, Spec.W5, List.replicate, PositionNedYaw.toFp, Fp.round32_four,
      Fp.round32_three, Fp.finite_div_two, Fp.round32_three_halves, Fp.zero_eq]
  · rw [h.2.1]
    simp [List.range_succ, Spec.dwell]

/-! ## The Safety Gate -/

/-- C2, on two telemetry traces that the Safety Gate lets through.  The band is
`[-0.2f, 0.2f]`.  On `nanPosition` both reads of line 122 return NaN, which compares
false with either bound; on `tornRead` the first read is 0.3f, tested only against the
lower bound, and the second is -0.3f, tested only against the upper bound.  In both runs
no read lies in the band, yet after nine blocks the process is alive at the Takeoff
Supervisor and after eleven it has armed the vehicle. -/
theorem safety_gate_passes_unsafe :
    safe_band = Fp.finite (13421773 / 67108864) ∧
      (nanPosition.down_m 0 = Fp.nan ∧ nanPosition.down_m 1 = Fp.nan ∧
        ¬(-safe_band ≤ Fp.nan ∧ Fp.nan ≤ safe_band) ∧
        (runN nanPosition 9 init).pc = .set_takeoff_altitude ∧
        (runN nanPosition 9 init).exit_code = none ∧
        Event.arm .Success ∈ (runN nanPosition 11 init).log) ∧
      (tornRead.down_m 0 = Fp.finite (5033165 / 16777216) ∧
        tornRead.down_m 1 = Fp.finite (-5033165 / 16777216) ∧
        safe_band < tornRead.down_m 0 ∧ tornRead.down_m 1 < -safe_band ∧
        (runN tornRead 9 init).pc = .set_takeoff_altitude ∧
        (runN tornRead 9 init).exit_code = none ∧
        Event.arm .Success ∈ (runN tornRead 11 init).log) := by
  have hle : ¬(Fp.nan ≤ safe_band) := by
    show ¬(Fp.le Fp.nan safe_band = true)
    simp [Fp.le]
  refine ⟨rfl, ⟨rfl, rfl, fun h => hle h.2, ?_, ?_, ?_⟩, ⟨rfl, rfl, ?_, ?_, ?_, ?_, ?_⟩⟩ <;>
    norm_num [runN, step, init, nanPosition, tornRead, cooperative, Config.goto, Config.emit,
      Config.halt, Config.takeoff_altitude, safe_band, Fp.round32_four]

/-! ## The Takeoff Supervisor -/

theorem supervisor_run (w : World) (c : Config) (hpc : c.pc = .set_takeoff_altitude)
    (hrun : c.exit_code = none) :
    runN w 3 c =
      if w.set_altitude_result ≠ .Success then
        { c with exit_code := some 1,
                 log := c.log ++ [.set_takeoff_altitude c.takeoff_altitude w.set_altitude_result] }
      else if w.arm_result ≠ .Success then
        { c with pc := .arm, exit_code := some 1,
                 log := c.log ++ [.set_takeoff_altitude c.takeoff_altitude w.set_altitude_result,
                                  .arm w.arm_result] }
      else if w.takeoff_result ≠ .Success then
        { c with pc := .takeoff, exit_code := some 1,
                 log := c.log ++ [.set_takeoff_altitude c.takeoff_altitude w.set_altitude_result,
                                  .arm w.arm_result, .takeoff w.takeoff_result] }
      else
        { c with pc := .climb,
                 log := c.log ++ [.set_takeoff_altitude c.takeoff_altitude w.set_altitude_result,
                                  .arm w.arm_result, .takeoff w.takeoff_result] } := by
  obtain ⟨pc, ec, a, d, r, v, s, hr, pr, br, sc, log⟩ := c
  simp only at hpc hrun
  subst hpc hrun
  by_cases h1 : w.set_altitude_result = .Success
  · by_cases h2 : w.arm_result = .Success
    · by_cases h3 : w.takeoff_result = .Success
      · simp [runN, step, Config.goto, Config.emit, Config.halt, Config.takeoff_altitude,
          h1, h2, h3]
      · simp [runN, step, Config.goto, Config.emit, Config.halt, Config.takeoff_altitude,
          h1, h2, h3]
    · simp [runN, step, Config.goto, Config.emit, Config.halt, Config.takeoff_altitude, h1, h2]
  · simp [runN, step, Config.goto, Config.emit, Config.halt, Config.takeoff_altitude, h1]

theorem actionCalls_step_later (w : World) (c : Config) (h : 12 ≤ c.pc.rank) :
    actionCalls (step w c).log = actionCalls c.log := by
  obtain ⟨pc, ec, a, d, r, v, s, hr, pr, br, sc, log⟩ := c
  cases ec with
  | some k => simp [step]
  | none =>
    cases pc <;> simp only [step, Config.halt, Config.goto, Config.emit] <;>
      (try split) <;> (try split_ifs) <;>
      simp_all [Pc.rank, actionCalls, Event.isActionCall]

theorem actionCalls_runN_later (w : World) (n : Nat) :
    ∀ c : Config, 12 ≤ c.pc.rank → actionCalls (runN w n c).log = actionCalls c.log := by
  induction n with
  | zero => intro c _; rfl
  | succ n ih =>
    intro c h
    rw [runN, ih _ (le_trans h (rank_step w c)), actionCalls_step_later w c h]

/-- C7: in a run that reaches the Takeoff Supervisor (at step `T`, with parsed altitude
`a`), whatever the three acknowledgments are, from three steps later on and for ever the
action calls made are `set_takeoff_altitude((float)a)`, then `arm()` only if the altitude was
acknowledged with `Success`, then `takeoff()` only if arming was too: in that order,
each at most once.  If any of the three acknowledgments is not `Success`, the process
has exit code 1 and no offboard setpoint or `start()` call has been or will be made. -/
theorem takeoff_supervisor (w : World) (T : Nat) (a : Fp)
    (ha : w.altitude_arg = .value a)
    (hpc : (runN w T init).pc = .set_takeoff_altitude)
    (hrun : (runN w T init).exit_code = none) (t : Nat) :
    actionCalls (runN w (T + 3 + t) init).log =
        Event.set_takeoff_altitude (Fp.narrow a) w.set_altitude_result ::
          (if w.set_altitude_result = .Success then
            Event.arm w.arm_result ::
              (if w.arm_result = .Success then [Event.takeoff w.takeoff_result] else [])
           else []) ∧
      (¬(w.set_altitude_result = .Success ∧ w.arm_result = .Success ∧
            w.takeoff_result = .Success) →
        (runN w (T + 3 + t) init).exit_code = some 1 ∧
          offboardCalls (runN w (T + 3 + t) init).log = []) := by
  have hinv := inv_runN w T
  have hact := hinv.no_action (Or.inr ⟨hpc, hrun⟩)
  have halt := hinv.alt (by rw [hpc]; simp [Pc.rank])
  rw [ha] at halt
  simp only [StodResult.value.injEq] at halt
  have h3 := supervisor_run w (runN w T init) hpc hrun
  simp only [Config.takeoff_altitude] at h3
  rw [← halt] at h3
  have hsplit : runN w (T + 3 + t) init = runN w t (runN w 3 (runN w T init)) := by
    rw [runN_add, runN_add]
  have hoff : (runN w (T + 3 + t) init).exit_code = some 1 →
      (runN w (T + 3 + t) init).pc.rank ≤ 13 →
      offboardCalls (runN w (T + 3 + t) init).log = [] := fun _ hr =>
    ((inv_runN w (T + 3 + t)).no_offboard hr).1
  rw [hsplit] at hoff ⊢
  by_cases h1 : w.set_altitude_result = .Success
  · by_cases h2 : w.arm_result = .Success
    · by_cases h3' : w.takeoff_result = .Success
      · rw [h3, actionCalls_runN_later w t _ (by simp [h1, h2, h3', Pc.rank])]
        simp [h1, h2, h3', actionCalls, List.filter_append, Event.isActionCall] at hact ⊢
        exact hact
      · simp only [h1, h2, h3', ne_eq, not_true_eq_false, not_false_eq_true, if_true,
          if_false] at h3
        rw [runN_of_exited w t _ 1 (by rw [h3])] at hoff ⊢
        rw [h3] at hoff ⊢
        simp only [hpc] at hoff
        simp [h1, h2, h3', actionCalls, List.filter_append, Event.isActionCall, Pc.rank]
          at hact hoff ⊢
        exact ⟨hact, hoff⟩
    · simp only [h1, h2, ne_eq, not_true_eq_false, not_false_eq_true, if_true,
        if_false] at h3
      rw [runN_of_exited w t _ 1 (by rw [h3])] at hoff ⊢
      rw [h3] at hoff ⊢
      simp [h1, h2, actionCalls, List.filter_append, Event.isActionCall, Pc.rank]
        at hact hoff ⊢
      exact ⟨hact, hoff⟩
  · simp only [h1, ne_eq, not_false_eq_true, if_true] at h3
    rw [runN_of_exited w t _ 1 (by rw [h3])] at hoff ⊢
    rw [h3] at hoff ⊢
    simp only [hpc] at hoff
    simp [h1, actionCalls, List.filter_append, Event.isActionCall, Pc.rank] at hact hoff ⊢
    exact ⟨hact, hoff⟩

/-- C7 on a vehicle that acknowledges the altitude and refuses to arm: the calls are
`set_takeoff_altitude(4)` and `arm()`, `takeoff()` is not called, the exit code is 1 and
nothing was sent to the offboard plugin. -/
theorem takeoff_supervisor_witness :
    actionCalls (runN armRejected (9 + 3 + 0) init).log =
        [Event.set_takeoff_altitude (.finite 4) .Success, Event.arm (.Other 5)] ∧
      (runN armRejected (9 + 3 + 0) init).exit_code = some 1 ∧
      offboardCalls (runN armRejected (9 + 3 + 0) init).log = [] := by
  have h := takeoff_supervisor armRejected 9 (.finite 4) rfl
    (by norm_num [runN, step, init, armRejected, cooperative, Config.goto, Config.emit,
          Config.halt, safe_band])
    (by norm_num [runN, step, init, armRejected, cooperative, Config.goto, Config.emit,
          Config.halt, safe_band]) 0
  have hr : armRejected.arm_result = .Other 5 := rfl
  have hs : armRejected.set_altitude_result = .Success := rfl
  rw [hr, hs] at h
  exact ⟨by simpa [Fp.round32_four] using h.1, h.2 (by simp)⟩

/-! ## The Offboard Negotiator -/

theorem pattern_step (w : World) (c : Config) (h : 16 ≤ c.pc.rank) (hrun : c.exit_code = none) :
    (step w c).exit_code = none ∧ 16 ≤ (step w c).pc.rank ∧
      negotiation (step w c).log = negotiation c.log := by
  obtain ⟨pc, ec, a, d, r, v, s, hr, pr, br, sc, log⟩ := c
  simp only at hrun
  subst hrun
  cases pc <;> simp only [step, Config.halt, Config.goto, Config.emit] <;>
    (try split_ifs) <;>
    simp_all [Pc.rank, negotiation, Event.isNegotiation]

theorem pattern_runN (w : World) (n : Nat) :
    ∀ c : Config, 16 ≤ c.pc.rank → c.exit_code = none →
      (runN w n c).exit_code = none ∧ 16 ≤ (runN w n c).pc.rank ∧
        negotiation (runN w n c).log = negotiation c.log := by
  induction n with
  | zero => intro c h hrun; exact ⟨hrun, h, rfl⟩
  | succ n ih =>
    intro c h hrun
    obtain ⟨s1, s2, s3⟩ := pattern_step w c h hrun
    obtain ⟨r1, r2, r3⟩ := ih _ s2 s1
    exact ⟨r1, r2, by rw [runN, r3, s3]⟩

theorem negotiate_second (w : World) (c : Config) (hpc : c.pc = .hover)
    (hrun : c.exit_code = none) (h0 : w.offboard_result c.start_calls ≠ .Success)
    (h1 : w.offboard_result (c.start_calls + 1) = .Success) :
    runN w 4 c =
      { c with pc := .hold_over_rx, retry_offboard_count := 2,
               start_calls := c.start_calls + 2,
               log := c.log ++ [.sleep_for 5,
                 .set_velocity_ned stay, .start (w.offboard_result c.start_calls), .sleep_for 2,
                 .set_velocity_ned stay, .start .Success] } := by
  obtain ⟨pc, ec, a, d, r, v, s, hr, pr, br, sc, log⟩ := c
  simp only at hpc hrun h0 h1
  subst hpc hrun
  simp [runN, step, Config.goto, Config.emit, Config.halt, h0, h1]

theorem negotiate_third (w : World) (c : Config) (hpc : c.pc = .hover)
    (hrun : c.exit_code = none) (h0 : w.offboard_result c.start_calls ≠ .Success)
    (h1 : w.offboard_result (c.start_calls + 1) ≠ .Success)
    (h2 : w.offboard_result (c.start_calls + 2) = .Success) :
    runN w 5 c =
      { c with pc := .hold_over_rx, retry_offboard_count := 1,
               start_calls := c.start_calls + 3,
               log := c.log ++ [.sleep_for 5,
                 .set_velocity_ned stay, .start (w.offboard_result c.start_calls), .sleep_for 2,
                 .set_velocity_ned stay, .start (w.offboard_result (c.start_calls + 1)),
                 .sleep_for 2,
                 .set_velocity_ned stay, .start .Success] } := by
  obtain ⟨pc, ec, a, d, r, v, s, hr, pr, br, sc, log⟩ := c
  simp only at hpc hrun h0 h1 h2
  subst hpc hrun
  simp [runN, step, Config.goto, Config.emit, Config.halt, h0, h1, h2]

theorem negotiate_failed (w : World) (c : Config) (hpc : c.pc = .hover)
    (hrun : c.exit_code = none) (h0 : w.offboard_result c.start_calls ≠ .Success)
    (h1 : w.offboard_result (c.start_calls + 1) ≠ .Success)
    (h2 : w.offboard_result (c.start_calls + 2) ≠ .Success) :
    runN w 6 c =
      { c with pc := .offboard_check, exit_code := some 1, retry_offboard_count := 0,
               start_calls := c.start_calls + 3,
               log := c.log ++ [.sleep_for 5,
                 .set_velocity_ned stay, .start (w.offboard_result c.start_calls), .sleep_for 2,
                 .set_velocity_ned stay, .start (w.offboard_result (c.start_calls + 1)),
                 .sleep_for 2,
                 .set_velocity_ned stay, .start (w.offboard_result (c.start_calls + 2)),
                 .sleep_for 2] } := by
  obtain ⟨pc, ec, a, d, r, v, s, hr, pr, br, sc, log⟩ := c
  simp only at hpc hrun h0 h1 h2
  subst hpc hrun
  simp [runN, step, Config.goto, Config.emit, Config.halt, h0, h1, h2]

/-- C3: in a run that reaches the hover before offboard negotiation (at step `T`), for
every sequence of `start()` results, once the negotiation is over (six steps later, and
for ever after) the velocity setpoints and `start()` calls made are `n` pairs of one
zero-velocity setpoint immediately followed by one `start()`, where `1 ≤ n ≤ 3`; no
call before the last one succeeded, so none follows a success; `n = min 3 (j + 1)` when
the first success is result number `j` (counted from 0), and `n = 3` when there is none;
the process is alive in the pattern loop (stage 16) if and only if one of the first three
results is `Success`, and has exit code 1 if and only if none is. -/
theorem offboard_negotiator (w : World) (T : Nat)
    (hpc : (runN w T init).pc = .hover) (hrun : (runN w T init).exit_code = none) (t : Nat) :
    ∃ n, 1 ≤ n ∧ n ≤ 3 ∧
      negotiation (runN w (T + 6 + t) init).log =
        (List.range n).flatMap (fun i =>
          [Event.set_velocity_ned stay, Event.start (w.offboard_result i)]) ∧
      (∀ i, i + 1 < n → w.offboard_result i ≠ .Success) ∧
      (∀ j, w.offboard_result j = .Success → (∀ i, i < j → w.offboard_result i ≠ .Success) →
        n = min 3 (j + 1)) ∧
      ((∀ j, w.offboard_result j ≠ .Success) → n = 3) ∧
      ((∃ i, i < 3 ∧ w.offboard_result i = .Success) ↔
        ((runN w (T + 6 + t) init).exit_code = none ∧
          16 ≤ (runN w (T + 6 + t) init).pc.rank)) ∧
      ((∀ i, i < 3 → w.offboard_result i ≠ .Success) ↔
        (runN w (T + 6 + t) init).exit_code = some 1) := by
  have hinv := inv_runN w T
  obtain ⟨hoff, hsc, -⟩ := hinv.no_offboard (by rw [hpc]; simp [Pc.rank])
  obtain ⟨-, hneg, -⟩ := quiet_of_no_offboard hoff
  simp only [negotiation] at hneg
  by_cases h0 : w.offboard_result 0 = .Success
  · -- success at the first attempt
    have h3 := negotiate_first w (runN w T init) hpc hrun (by rw [hsc]; exact h0)
    have hsplit : runN w (T + 6 + t) init = runN w (3 + t) (runN w 3 (runN w T init)) := by
      rw [← runN_add, ← runN_add]; congr 1; omega
    obtain ⟨p1, p2, p3⟩ := pattern_runN w (3 + t) (runN w 3 (runN w T init))
      (by rw [h3]; simp [Pc.rank]) (by rw [h3]; exact hrun)
    rw [← hsplit] at p1 p2 p3
    refine ⟨1, le_rfl, by omega, ?_, ?_, ?_, ?_, ?_, ?_⟩
    · rw [p3, h3]
      simp [negotiation, List.filter_append, hneg, Event.isNegotiation, h0, List.range_succ]
    · intro i hi; omega
    · intro j hj hfirst
      have : j = 0 := by
        by_contra hne
        exact hfirst 0 (Nat.pos_of_ne_zero hne) h0
      subst this; simp
    · intro hall; exact absurd h0 (hall 0)
    · exact ⟨fun _ => ⟨p1, p2⟩, fun _ => ⟨0, by omega, h0⟩⟩
    · constructor
      · intro hall; exact absurd h0 (hall 0 (by omega))
      · intro he; rw [p1] at he; exact absurd he (by simp)
  · by_cases h1 : w.offboard_result 1 = .Success
    · -- success at the second attempt
      have h4 := negotiate_second w (runN w T init) hpc hrun (by rw [hsc]; exact h0)
        (by rw [hsc]; exact h1)
      have hsplit : runN w (T + 6 + t) init = runN w (2 + t) (runN w 4 (runN w T init)) := by
        rw [← runN_add, ← runN_add]; congr 1; omega
      obtain ⟨p1, p2, p3⟩ := pattern_runN w (2 + t) (runN w 4 (runN w T init))
        (by rw [h4]; simp [Pc.rank]) (by rw [h4]; exact hrun)
      rw [← hsplit] at p1 p2 p3
      refine ⟨2, by omega, by omega, ?_, ?_, ?_, ?_, ?_, ?_⟩
      · rw [p3, h4]
        simp [negotiation, List.filter_append, hneg, Event.isNegotiation, hsc, h1,
          List.range_succ]
      · intro i hi
        have : i = 0 := by omega
        subst this; exact h0
      · intro j hj hfirst
        have : j = 1 := by
          rcases Nat.lt_trichotomy j 1 with hlt | heq | hgt
          · have : j = 0 := by omega
            subst this; exact absurd hj h0
          · exact heq
          · exact absurd h1 (hfirst 1 hgt)
        subst this; simp
      · intro hall; exact absurd h1 (hall 1)
      · exact ⟨fun _ => ⟨p1, p2⟩, fun _ => ⟨1, by omega, h1⟩⟩
      · constructor
        · intro hall; exact absurd h1 (hall 1 (by omega))
        · intro he; rw [p1] at he; exact absurd he (by simp)
    · by_cases h2 : w.offboard_result 2 = .Success
      · -- success at the third attempt
        have h5 := negotiate_third w (runN w T init) hpc hrun (by rw [hsc]; exact h0)
          (by rw [hsc]; exact h1) (by rw [hsc]; exact h2)
        have hsplit : runN w (T + 6 + t) init = runN w (1 + t) (runN w 5 (runN w T init)) := by
          rw [← runN_add, ← runN_add]; congr 1; omega
        obtain ⟨p1, p2, p3⟩ := pattern_runN w (1 + t) (runN w 5 (runN w T init))
          (by rw [h5]; simp [Pc.rank]) (by rw [h5]; exact hrun)
        rw [← hsplit] at p1 p2 p3
        refine ⟨3, by omega, le_rfl, ?_, ?_, ?_, ?_, ?_, ?_⟩
        · rw [p3, h5]
          simp [negotiation, List.filter_append, hneg, Event.isNegotiation, hsc, h2,
            List.range_succ]
        · intro i hi
          have : i = 0 ∨ i = 1 := by omega
          rcases this with rfl | rfl
          · exact h0
          · exact h1
        · intro j hj hfirst
          have : 2 ≤ j := by
            by_contra hlt
            have : j = 0 ∨ j = 1 := by omega
            rcases this with rfl | rfl
            · exact h0 hj
            · exact h1 hj
          omega
        · intro _; rfl
        · exact ⟨fun _ => ⟨p1, p2⟩, fun _ => ⟨2, by omega, h2⟩⟩
        · constructor
          · intro hall; exact absurd h2 (hall 2 (by omega))
          · intro he; rw [p1] at he; exact absurd he (by simp)
      · -- three failures
        have h6 := negotiate_failed w (runN w T init) hpc hrun (by rw [hsc]; exact h0)
          (by rw [hsc]; exact h1) (by rw [hsc]; exact h2)
        have hsplit : runN w (T + 6 + t) init = runN w t (runN w 6 (runN w T init)) := by
          rw [runN_add, runN_add]
        have hex : (runN w 6 (runN w T init)).exit_code = some 1 := by rw [h6]
        rw [runN_of_exited w t _ 1 hex] at hsplit
        have hall : ∀ i, i < 3 → w.offboard_result i ≠ .Success := by
          intro i hi
          have : i = 0 ∨ i = 1 ∨ i = 2 := by omega
          rcases this with rfl | rfl | rfl
          · exact h0
          · exact h1
          · exact h2
        refine ⟨3, by omega, le_rfl, ?_, ?_, ?_, ?_, ?_, ?_⟩
        · rw [hsplit, h6]
          simp [negotiation, List.filter_append, hneg, Event.isNegotiation, hsc,
            List.range_succ]
        · intro i hi; exact hall i (by omega)
        · intro j hj hfirst
          have : 3 ≤ j := by
            by_contra hlt
            exact hall j (by omega) hj
          omega
        · intro _; rfl
        · constructor
          · rintro ⟨i, hi, hs⟩; exact absurd hs (hall i hi)
          · rintro ⟨he, -⟩; rw [hsplit, hex] at he; exact absurd he (by simp)
        · exact ⟨fun _ => by rw [hsplit, hex], fun _ => hall⟩

/-- C3 on a vehicle whose `start()` fails twice and then succeeds: three attempts, each
a zero-velocity setpoint followed by `start()`, and the process is alive in the pattern
loop. -/
theorem offboard_negotiator_witness :
    negotiation (runN thirdTimeLucky (13 + 6 + 0) init).log =
        [Event.set_velocity_ned stay, Event.start (.Other 8),
         Event.set_velocity_ned stay, Event.start (.Other 8),
         Event.set_velocity_ned stay, Event.start .Success] ∧
      (runN thirdTimeLucky (13 + 6 + 0) init).exit_code = none ∧
      16 ≤ (runN thirdTimeLucky (13 + 6 + 0) init).pc.rank := by
  obtain ⟨n, h1, h2, h3, h4, h5, h6, h7, h8⟩ := offboard_negotiator thirdTimeLucky 13
    (by norm_num [runN, step, init, thirdTimeLucky, cooperative, Config.goto, Config.emit,
          Config.halt, Config.takeoff_altitude, safe_band, climb_margin,
          Fp.round32_four, Fp.round32_zero])
    (by norm_num [runN, step, init, thirdTimeLucky, cooperative, Config.goto, Config.emit,
          Config.halt, Config.takeoff_altitude, safe_band, climb_margin,
          Fp.round32_four, Fp.round32_zero]) 0
  have hn : n = 3 := by
    have := h5 2 (by simp [thirdTimeLucky]) (by intro i hi; simp [thirdTimeLucky, hi])
    simpa using this
  subst hn
  refine ⟨?_, h7.mp ⟨2, by omega, by simp [thirdTimeLucky]⟩⟩
  rw [h3]
  simp [List.range_succ, thirdTimeLucky]

/-! ## The Battery Guard -/

theorem battery_hold_stuck (w : World) (n : Nat) :
    ∀ c : Config, c.pc = .battery_hold → c.exit_code = none →
      c.battery_voltage < low_voltage →
      runN w n c = { c with log := c.log ++ List.replicate n (Event.sleep_for 30) } := by
  induction n with
  | zero => intro c _ _ _; simp [runN]
  | succ n ih =>
    intro c hpc hrun hv
    have hs : step w c = { c with log := c.log ++ [Event.sleep_for 30] } := by
      obtain ⟨pc, ec, a, d, r, v, s, hr, pr, br, sc, log⟩ := c
      simp only at hpc hrun hv
      subst hpc hrun
      simp [step, Config.emit, hv]
    rw [runN, ih (step w c) (by rw [hs]; exact hpc) (by rw [hs]; exact hrun)
      (by rw [hs]; exact hv), hs]
    simp [List.replicate_succ]

/-- C1, on the readings 6.5 V, 6.9 V, 7.1 V: the program samples the voltage once (6.5 V,
in its 17th block) and then, for ever, only sleeps 30 s: it stays at the battery
hold, never samples again and never reaches the operator prompt. -/
theorem battery_guard_samples_once (n : Nat) :
    (runN lowBattery (17 + n) init).pc = .battery_hold ∧
      (runN lowBattery (17 + n) init).exit_code = none ∧
      (runN lowBattery (17 + n) init).battery_voltage = .finite (13 / 2) ∧
      batterySamples (runN lowBattery (17 + n) init).log = [Event.battery (.finite (13 / 2))] ∧
      (runN lowBattery (17 + n) init).log =
        (runN lowBattery 17 init).log ++ List.replicate n (Event.sleep_for 30) := by
  have h17 : runN lowBattery 17 init =
      { pc := .battery_hold, exit_code := none, altitude := .finite 4,
        pattern_dimension := .finite 3,
        retry_offboard_count := 3, battery_voltage := .finite (13 / 2), subscribed := true,
        health_reads := 1, position_reads := 3, battery_reads := 1, start_calls := 1,
        log := [.health true, .subscribe_message, .position_velocity_ned (.finite 0),
                .position_velocity_ned (.finite 0),
                .set_takeoff_altitude (.finite 4) .Success, .arm .Success,
                .takeoff .Success, .position_velocity_ned (.finite (-4)), .sleep_for 5,
                .set_velocity_ned stay, .start .Success,
                .set_position_ned (PositionNedYaw.toFp ⟨0, 0, -4, 0⟩), .sleep_for 15,
                .battery (.finite (13 / 2))] } := by
    norm_num [runN, step, init, lowBattery, cooperative, Config.goto, Config.emit,
      Config.halt, Config.takeoff_altitude, Config.ui, Config.pa, safe_band, climb_margin,
      Fp.round32_four, Fp.round32_zero,
      point1, PositionNedYaw.toFp]
    exact Fp.zero_eq
  have hs := battery_hold_stuck lowBattery n (runN lowBattery 17 init) (by rw [h17])
    (by rw [h17]) (by rw [h17]; norm_num [low_voltage])
  rw [runN_add, hs, h17]
  simp [batterySamples, List.filter_append, Event.isBattery]

/-! ## Heartbeats and exit status -/

theorem exec_cons (w : World) (a : Action) (sched : List Action) (c : Config) :
    exec w (a :: sched) c = exec w sched (act w c a) := rfl

theorem exec_append (w : World) (s1 s2 : List Action) (c : Config) :
    exec w (s1 ++ s2) c = exec w s2 (exec w s1 c) := by
  simp [exec, List.foldl_append]

theorem exec_ticks (w : World) (n : Nat) (c : Config) :
    exec w (List.replicate n .tick) c = runN w n c := by
  induction n generalizing c with
  | zero => rfl
  | succ n ih => rw [List.replicate_succ, exec_cons, ih]; rfl

theorem deliver_of_exited (m : Nat) (c : Config) (k : Nat) (h : c.exit_code = some k) :
    deliver m c = c := by
  unfold deliver; simp [h]

theorem exec_of_exited (w : World) (sched : List Action) (c : Config) (k : Nat)
    (h : c.exit_code = some k) : exec w sched c = c := by
  induction sched with
  | nil => rfl
  | cons a sched ih =>
    rw [exec_cons]
    cases a with
    | tick => simpa [act, step_of_exited w c k h] using ih
    | heartbeat m => simpa [act, deliver_of_exited m c k h] using ih

theorem step_exit_code (w : World) (c : Config) :
    (step w c).exit_code = c.exit_code ∨ (step w c).exit_code = some 1 := by
  obtain ⟨pc, ec, a, d, r, v, s, hr, pr, br, sc, log⟩ := c
  cases ec with
  | some k => simp [step]
  | none =>
    cases pc <;> simp only [step, Config.halt, Config.goto, Config.emit] <;>
      (try split) <;> (try split_ifs) <;> simp

theorem deliver_exit_code (m : Nat) (c : Config) :
    deliver m c = c ∨
      (m = manual_mode ∧ c.subscribed = true ∧ c.exit_code = none ∧
        deliver m c = { c with exit_code := some 0 }) := by
  unfold deliver
  split
  · exact Or.inl rfl
  · rename_i hnone
    split_ifs with h
    · exact Or.inr ⟨h.2, h.1, hnone, rfl⟩
    · exact Or.inl rfl

theorem exit_zero_from (w : World) (sched : List Action) :
    ∀ c : Config, c.exit_code ≠ some 0 → (exec w sched c).exit_code = some 0 →
      Action.heartbeat manual_mode ∈ sched := by
  induction sched with
  | nil => intro c hc h; exact absurd h hc
  | cons a sched ih =>
    intro c hc h
    rw [exec_cons] at h
    cases a with
    | tick =>
      refine List.mem_cons_of_mem _ (ih (step w c) ?_ h)
      rcases step_exit_code w c with hs | hs
      · rw [hs]; exact hc
      · rw [hs]; simp
    | heartbeat m =>
      rcases deliver_exit_code m c with hd | ⟨hm, -, -, -⟩
      · refine List.mem_cons_of_mem _ (ih c hc ?_)
        simpa [act, hd] using h
      · rw [hm]; exact List.mem_cons_self _ _

theorem exit_code_from (w : World) (sched : List Action) :
    ∀ c : Config, (∀ k, c.exit_code = some k → k = 0 ∨ k = 1) →
      ∀ k, (exec w sched c).exit_code = some k → k = 0 ∨ k = 1 := by
  induction sched with
  | nil => intro c hc k h; exact hc k h
  | cons a sched ih =>
    intro c hc k h
    rw [exec_cons] at h
    refine ih (act w c a) ?_ k h
    intro j hj
    cases a with
    | tick =>
      rcases step_exit_code w c with hs | hs
      · exact hc j (by rw [← hs]; exact hj)
      · simp only [act, hs, Option.some.injEq] at hj
        exact Or.inr hj.symm
    | heartbeat m =>
      rcases deliver_exit_code m c with hd | ⟨-, -, -, hd⟩
      · exact hc j (by simpa [act, hd] using hj)
      · simp only [act, hd, Option.some.injEq] at hj
        exact Or.inl hj.symm

/-! ## Velocity setpoints belong to the negotiation -/

theorem velGated_nil : VelGated [] := by
  intro l1 l2 v h
  simp at h

theorem velGated_append_quiet {log : List Event} (es : List Event) (h : VelGated log)
    (hes : ∀ v, Event.set_velocity_ned v ∉ es) : VelGated (log ++ es) := by
  intro l1 l2 v heq
  rcases List.append_eq_append_iff.mp heq with ⟨a, rfl, h2⟩ | ⟨b, rfl, h2⟩
  · exact absurd (by rw [h2]; simp) (hes v)
  · cases b with
    | nil =>
      simp only [List.nil_append] at h2
      exact absurd (by rw [← h2]; simp) (hes v)
    | cons x b =>
      simp only [List.cons_append, List.cons.injEq] at h2
      obtain ⟨rfl, -⟩ := h2
      exact h l1 b v rfl

theorem velGated_append_stay {log : List Event} (h : VelGated log)
    (hs : Event.start .Success ∉ log) : VelGated (log ++ [Event.set_velocity_ned stay]) := by
  intro l1 l2 v heq
  rcases List.append_eq_append_iff.mp heq with ⟨a, rfl, h2⟩ | ⟨b, rfl, h2⟩
  · cases a with
    | nil =>
      simp only [List.nil_append, List.cons.injEq, Event.set_velocity_ned.injEq] at h2
      exact ⟨h2.1.symm, by simpa using hs⟩
    | cons x a =>
      simp only [List.cons_append, List.cons.injEq] at h2
      exact absurd h2.2 (by simp)
  · cases b with
    | nil =>
      simp only [List.nil_append, List.cons.injEq, Event.set_velocity_ned.injEq] at h2
      exact ⟨h2.1, by simpa using hs⟩
    | cons x b =>
      simp only [List.cons_append, List.cons.injEq] at h2
      obtain ⟨rfl, -⟩ := h2
      exact h l1 b v rfl

theorem vel_step (w : World) (c : Config)
    (h : VelGated c.log ∧ (c.pc.rank ≤ 14 → Event.start .Success ∉ c.log)) :
    VelGated (step w c).log ∧
      ((step w c).pc.rank ≤ 14 → Event.start .Success ∉ (step w c).log) := by
  obtain ⟨pc, ec, a, d, r, v, s, hr, pr, br, sc, log⟩ := c
  obtain ⟨hv, hn⟩ := h
  cases ec with
  | some k => simpa [step] using And.intro hv hn
  | none =>
    cases pc
    case offboard_retry =>
      have hn' : Event.start .Success ∉ log := hn (by simp [Pc.rank])
      have hv1 := velGated_append_stay hv hn'
      simp only [step, Config.halt, Config.goto, Config.emit]
      split_ifs with h1 h2
      · refine ⟨?_, by simp [Pc.rank]⟩
        have := velGated_append_quiet [Event.start (w.offboard_result sc)] hv1 (by simp)
        simpa using this
      · refine ⟨?_, ?_⟩
        · have := velGated_append_quiet
            [Event.start (w.offboard_result sc), Event.sleep_for 2] hv1 (by simp)
          simpa using this
        · intro _
          simp only at hn'
          simp [hn', Ne.symm h2]
      · exact ⟨hv, by simp [Pc.rank]⟩
    all_goals
      simp only [step, Config.halt, Config.goto, Config.emit]
      (try split) <;> (try split_ifs) <;>
      (refine ⟨?_, ?_⟩ <;>
        first
        | exact hv
        | (apply velGated_append_quiet _ hv; simp)
        | simp_all [Pc.rank])

theorem vel_exec (w : World) (sched : List Action) :
    ∀ c : Config, (VelGated c.log ∧ (c.pc.rank ≤ 14 → Event.start .Success ∉ c.log)) →
      VelGated (exec w sched c).log := by
  induction sched with
  | nil => intro c h; exact h.1
  | cons a sched ih =>
    intro c h
    rw [exec_cons]
    apply ih
    cases a with
    | tick => exact vel_step w c h
    | heartbeat m =>
      rcases deliver_exit_code m c with hd | ⟨-, -, -, hd⟩
      · simpa [act, hd] using h
      · simpa [act, hd] using h

/-! ## Claims about every schedule -/

/-- C10, as stated, fails: when `start()` never succeeds the program has sent three
velocity setpoints by the time it gives up, and no `start()` call ever returned
`Success`. -/
theorem setpoint_gating_counterexample :
    setpoints (runN offboardDenied 19 init).log =
        [Event.set_velocity_ned stay, Event.set_velocity_ned stay,
         Event.set_velocity_ned stay] ∧
      Event.start .Success ∉ (runN offboardDenied 19 init).log ∧
      (runN offboardDenied 19 init).exit_code = some 1 := by
  have h8 : Result.Other 8 ≠ Result.Success := by decide
  norm_num [runN, step, init, offboardDenied, cooperative, Config.goto, Config.emit,
    Config.halt, Config.takeoff_altitude, safe_band, climb_margin,
      Fp.round32_four, Fp.round32_zero, setpoints,
    Event.isSetpoint, h8]
  simp

/-- C10, amended: in every run, whenever heartbeats arrive, every position setpoint is
issued only after some `start()` call has returned `Success`; every velocity setpoint is
the zero setpoint of the negotiation loop and is issued while no `start()` call has yet
returned `Success`. -/
theorem setpoint_gating (w : World) (sched : List Action) :
    (∀ l1 l2 p, (exec w sched init).log = l1 ++ Event.set_position_ned p :: l2 →
        Event.start .Success ∈ l1) ∧
      (∀ l1 l2 v, (exec w sched init).log = l1 ++ Event.set_velocity_ned v :: l2 →
        v = stay ∧ Event.start .Success ∉ l1) :=
  ⟨(inv_exec w sched).gated,
   vel_exec w sched init ⟨velGated_nil, by simp [init]⟩⟩

/-- C10 on the cooperative vehicle after seventeen blocks: the one position setpoint sent
so far follows the successful `start()`, and the velocity setpoint precedes it. -/
theorem setpoint_gating_witness :
    Event.start .Success ∈
        [Event.health true, .subscribe_message, .position_velocity_ned (.finite 0),
         .position_velocity_ned (.finite 0), .set_takeoff_altitude (.finite 4) .Success,
         .arm .Success, .takeoff .Success, .position_velocity_ned (.finite (-4)),
         .sleep_for 5, .set_velocity_ned stay, .start .Success] ∧
      (stay = stay ∧
        Event.start .Success ∉
          [Event.health true, .subscribe_message, .position_velocity_ned (.finite 0),
           .position_velocity_ned (.finite 0), .set_takeoff_altitude (.finite 4) .Success,
           .arm .Success, .takeoff .Success, .position_velocity_ned (.finite (-4)),
           .sleep_for 5]) := by
  have hlog : (exec cooperative (List.replicate 17 .tick) init).log =
      [Event.health true, .subscribe_message, .position_velocity_ned (.finite 0),
         .position_velocity_ned (.finite 0), .set_takeoff_altitude (.finite 4) .Success,
         .arm .Success, .takeoff .Success, .position_velocity_ned (.finite (-4)),
         .sleep_for 5, .set_velocity_ned stay, .start .Success,
         .set_position_ned (PositionNedYaw.toFp ⟨0, 0, -4, 0⟩),
         .sleep_for 15, .battery (.finite 12)] := by
    rw [exec_ticks]
    norm_num [runN, step, init, cooperative, Config.goto, Config.emit, Config.halt,
      Config.takeoff_altitude, Config.ui, Config.pa, safe_band, climb_margin,
      Fp.round32_four, Fp.round32_zero, point1, PositionNedYaw.toFp]
    exact Fp.zero_eq
  have h := setpoint_gating cooperative (List.replicate 17 .tick)
  exact ⟨h.1 _ [.sleep_for 15, .battery (.finite 12)] (PositionNedYaw.toFp ⟨0, 0, -4, 0⟩)
      (by rw [hlog]; simp),
    h.2 _ [.start .Success, .set_position_ned (PositionNedYaw.toFp ⟨0, 0, -4, 0⟩),
        .sleep_for 15, .battery (.finite 12)]
      stay (by rw [hlog]; simp)⟩

/-- C8, as stated, fails: with dimension -3 on the command line the program arms the
vehicle and sends position setpoints; with altitude -1 as well, and a vehicle that
acknowledges it, the program arms too and its first position setpoint is at down = +1. -/
theorem configuration_counterexample :
    (negativeDimension.dimension_arg = .value (.finite (-3)) ∧
        Event.arm .Success ∈ (runN negativeDimension 17 init).log ∧
        Event.set_position_ned (PositionNedYaw.toFp ⟨0, 0, -4, 0⟩) ∈
          (runN negativeDimension 17 init).log) ∧
      (negativeArguments.altitude_arg = .value (.finite (-1)) ∧
        Event.arm .Success ∈ (runN negativeArguments 17 init).log ∧
        Event.set_position_ned (PositionNedYaw.toFp ⟨0, 0, 1, 0⟩) ∈
          (runN negativeArguments 17 init).log) := by
  refine ⟨⟨rfl, ?_, ?_⟩, ⟨rfl, ?_, ?_⟩⟩ <;>
    norm_num [runN, step, init, negativeArguments, negativeDimension, cooperative,
      Config.goto, Config.emit, Config.halt, Config.takeoff_altitude, Config.ui, Config.pa,
      safe_band, climb_margin,
      Fp.round32_four, Fp.round32_zero, Fp.round32_neg_one,
      Fp.round32_neg_five, point1, PositionNedYaw.toFp] <;>
    simp [Fp.zero_eq]

/-- C8, amended: in every run that calls `arm()` or issues a position setpoint, the
command line had four words and both the altitude and the dimension argument were
parsed by `std::stod` without an exception; the parsed values are in the variables
`altitude` and `pattern_dimension` whatever their sign: no sign check is made. -/
theorem configuration_of_armed_runs (w : World) (sched : List Action)
    (h : (∃ r, Event.arm r ∈ (exec w sched init).log) ∨
      (∃ p, Event.set_position_ned p ∈ (exec w sched init).log)) :
    w.argc = 4 ∧
      ∃ a d, w.altitude_arg = .value a ∧ w.dimension_arg = .value d ∧
        (exec w sched init).altitude = a ∧ (exec w sched init).pattern_dimension = d := by
  have hinv := inv_exec w sched
  have hrank : 10 ≤ (exec w sched init).pc.rank := by
    rcases h with ⟨r, hr⟩ | ⟨p, hp⟩
    · by_contra hlt
      exact hinv.no_arm (by omega) r hr
    · have := hinv.waypoint p hp
      omega
  exact ⟨hinv.argc (by omega), _, _, hinv.alt (by omega), hinv.dim (by omega), rfl, rfl⟩

/-- C8 on two runs.  The cooperative vehicle after thirteen blocks: `arm()` has been
called.  The run with dimension -3 after seventeen blocks: a position setpoint has been
issued.  In both the two numbers were parsed, 4 and 3 in the first, 4 and -3 in the
second. -/
theorem configuration_of_armed_runs_witness :
    (cooperative.argc = 4 ∧
      ∃ a d, cooperative.altitude_arg = .value a ∧ cooperative.dimension_arg = .value d ∧
        (exec cooperative (List.replicate 13 .tick) init).altitude = a ∧
        (exec cooperative (List.replicate 13 .tick) init).pattern_dimension = d) ∧
      (negativeDimension.argc = 4 ∧
        ∃ a d, negativeDimension.altitude_arg = .value a ∧
          negativeDimension.dimension_arg = .value d ∧
          (exec negativeDimension (List.replicate 17 .tick) init).altitude = a ∧
          (exec negativeDimension (List.replicate 17 .tick) init).pattern_dimension = d) :=
  ⟨configuration_of_armed_runs cooperative (List.replicate 13 .tick)
    (Or.inl ⟨.Success, by
      rw [exec_ticks]
      norm_num [runN, step, init, cooperative, Config.goto, Config.emit, Config.halt,
        Config.takeoff_altitude, safe_band, climb_margin, Fp.round32_four,
        Fp.round32_zero]⟩),
   configuration_of_armed_runs negativeDimension (List.replicate 17 .tick)
    (Or.inr ⟨PositionNedYaw.toFp ⟨0, 0, -4, 0⟩, by
      rw [exec_ticks]
      norm_num [runN, step, init, negativeDimension, cooperative, Config.goto, Config.emit,
        Config.halt, Config.takeoff_altitude, Config.ui, Config.pa, safe_band, climb_margin,
        Fp.round32_four, Fp.round32_zero, point1, PositionNedYaw.toFp]
      simp [Fp.zero_eq]⟩)⟩

/-- C9, as stated, fails: while the program is still waiting for the position lock the
heartbeat callback is not yet registered, so a heartbeat with the manual-takeover mode
delivered there does not terminate the process, which goes on to arm the vehicle. -/
theorem abort_listener_counterexample :
    (exec lateLock (heartbeatDuringLockWait.take 7) init).pc = .position_lock ∧
      heartbeatDuringLockWait.get? 7 = some (.heartbeat manual_mode) ∧
      (exec lateLock heartbeatDuringLockWait init).exit_code = none ∧
      Event.arm .Success ∈ (exec lateLock heartbeatDuringLockWait init).log := by
  refine ⟨?_, rfl, ?_, ?_⟩ <;>
    norm_num [exec, act, deliver, heartbeatDuringLockWait, manual_mode, runN, step, init,
      lateLock, cooperative, Config.goto, Config.emit, Config.halt,
      Config.takeoff_altitude, safe_band, climb_margin, Fp.round32_four,
      Fp.round32_zero]

/-- C9, amended: in every state that a run can reach from the preflight check onward
(stage 8 and later: preflight, takeoff and climb, negotiation, every point of the
pattern cycle) and in which the process is alive, delivery of a heartbeat whose mode is
196608 terminates the process with exit code 0, and whatever is scheduled afterwards
nothing more is logged: no command or setpoint is issued.  In every state, a heartbeat
with any other mode changes nothing.  Up to and including the position-lock wait
(stages 0 to 7) the callback is not registered and no heartbeat changes anything. -/
theorem abort_listener (w : World) (sched : List Action) :
    (8 ≤ (exec w sched init).pc.rank → (exec w sched init).exit_code = none →
        (deliver manual_mode (exec w sched init)).exit_code = some 0 ∧
        ∀ later, exec w later (deliver manual_mode (exec w sched init)) =
          { exec w sched init with exit_code := some 0 }) ∧
      (∀ m, m ≠ manual_mode → deliver m (exec w sched init) = exec w sched init) ∧
      ((exec w sched init).pc.rank ≤ 7 →
        ∀ m, deliver m (exec w sched init) = exec w sched init) := by
  have hinv := inv_exec w sched
  refine ⟨?_, ?_, ?_⟩
  · intro hr hrun
    have hsub := hinv.sub hr
    have hd : deliver manual_mode (exec w sched init) =
        { exec w sched init with exit_code := some 0 } := by
      simp [deliver, hrun, hsub]
    refine ⟨by rw [hd], ?_⟩
    intro later
    rw [hd]
    exact exec_of_exited w later _ 0 rfl
  · intro m hm
    rcases deliver_exit_code m (exec w sched init) with hd | ⟨h, -⟩
    · exact hd
    · exact absurd h hm
  · intro hr m
    have hsub := hinv.unsub hr
    rcases deliver_exit_code m (exec w sched init) with hd | ⟨-, h, -⟩
    · exact hd
    · rw [hsub] at h; exact absurd h (by simp)

/-- C9 on the cooperative vehicle, twenty blocks into the run (the pattern is under
way): the manual-takeover heartbeat ends the process with exit code 0, and the log
after five more scheduled blocks of `main` is the log at the moment of delivery. -/
theorem abort_listener_witness :
    (exec cooperative heartbeatDuringPattern init).exit_code = some 0 ∧
      (exec cooperative heartbeatDuringPattern init).log =
        (exec cooperative (List.replicate 20 .tick) init).log := by
  have hpc : (exec cooperative (List.replicate 20 .tick) init).pc = .position_2 := by
    rw [exec_ticks]
    norm_num [runN, step, init, cooperative, Config.goto, Config.emit, Config.halt,
      Config.takeoff_altitude, safe_band, climb_margin,
      Fp.round32_four, Fp.round32_zero, low_voltage]
  have hrun : (exec cooperative (List.replicate 20 .tick) init).exit_code = none := by
    rw [exec_ticks]
    norm_num [runN, step, init, cooperative, Config.goto, Config.emit, Config.halt,
      Config.takeoff_altitude, safe_band, climb_margin,
      Fp.round32_four, Fp.round32_zero, low_voltage]
  obtain ⟨-, h⟩ := (abort_listener cooperative (List.replicate 20 .tick)).1
    (by rw [hpc]; simp [Pc.rank]) hrun
  have hs : exec cooperative heartbeatDuringPattern init =
      exec cooperative (List.replicate 5 .tick)
        (deliver manual_mode (exec cooperative (List.replicate 20 .tick) init)) := by
    rw [heartbeatDuringPattern, exec_append, exec_append]
    rfl
  rw [hs, h]
  exact ⟨rfl, rfl⟩

/-- C6, as stated, fails: a manual-takeover heartbeat that arrives when the program has
just registered the callback and stands before the preflight check ends the process
with exit code 0, although `main` has not completed. -/
theorem exit_status_counterexample :
    (exec cooperative heartbeatBeforePreflight init).exit_code = some 0 ∧
      (exec cooperative heartbeatBeforePreflight init).pc = .preflight := by
  constructor <;>
    norm_num [exec, act, deliver, heartbeatBeforePreflight, manual_mode, runN, step, init,
      cooperative, Config.goto, Config.emit, Config.halt]

/-- C6, amended: in every run the exit code, if the process has ended, is 0 or 1; it is
0 only if a heartbeat with the manual-takeover mode was delivered (the Abort Listener
calls `exit(0)`), so without such a heartbeat every exit is with code 1; `main` itself
never completes: a block of `main` leaves the process alive or ends it with code 1.
Each fatal error ends the process with exit code 1: from the first line of `main`, a
wrong argument count, an altitude or dimension that `std::stod` rejects, a failed
connection, no autopilot discovered, a rejected telemetry rate; and, where `main`
stands at that check, a down coordinate outside the band, a rejected altitude, arm or
takeoff command, and a retry counter that has reached 0. -/
theorem exit_status (w : World) :
    (∀ sched k, (exec w sched init).exit_code = some k →
        (k = 0 ∨ k = 1) ∧ (k = 0 → Action.heartbeat manual_mode ∈ sched) ∧
          (Action.heartbeat manual_mode ∉ sched → k = 1)) ∧
      (∀ c, c.exit_code = none → (step w c).exit_code = none ∨ (step w c).exit_code = some 1) ∧
      (w.argc ≠ 4 → ∀ t, (runN w (1 + t) init).exit_code = some 1) ∧
      (w.argc = 4 → (∀ v, w.altitude_arg ≠ .value v) →
        ∀ t, (runN w (2 + t) init).exit_code = some 1) ∧
      (w.argc = 4 → (∃ v, w.altitude_arg = .value v) → (∀ v, w.dimension_arg ≠ .value v) →
        ∀ t, (runN w (3 + t) init).exit_code = some 1) ∧
      (w.argc = 4 → (∃ v, w.altitude_arg = .value v) → (∃ v, w.dimension_arg = .value v) →
        w.aircraft_result ≠ .Success → ∀ t, (runN w (4 + t) init).exit_code = some 1) ∧
      (w.argc = 4 → (∃ v, w.altitude_arg = .value v) → (∃ v, w.dimension_arg = .value v) →
        w.aircraft_result = .Success → w.system_found = false →
        ∀ t, (runN w (5 + t) init).exit_code = some 1) ∧
      (w.argc = 4 → (∃ v, w.altitude_arg = .value v) → (∃ v, w.dimension_arg = .value v) →
        w.aircraft_result = .Success → w.system_found = true →
        w.set_rate_result ≠ .Success → ∀ t, (runN w (6 + t) init).exit_code = some 1) ∧
      (∀ c, c.exit_code = none → c.pc = .preflight →
        (w.down_m c.position_reads < -safe_band ∨
          w.down_m (c.position_reads + 1) > safe_band) →
        (step w c).exit_code = some 1) ∧
      (∀ c, c.exit_code = none →
        ((c.pc = .set_takeoff_altitude ∧ w.set_altitude_result ≠ .Success) ∨
          (c.pc = .arm ∧ w.arm_result ≠ .Success) ∨
          (c.pc = .takeoff ∧ w.takeoff_result ≠ .Success)) →
        (step w c).exit_code = some 1) ∧
      (∀ c, c.exit_code = none → c.pc = .offboard_check → c.retry_offboard_count = 0 →
        (step w c).exit_code = some 1) := by
  refine ⟨?_, ?_, ?_, ?_, ?_, ?_, ?_, ?_, ?_, ?_, ?_⟩
  · intro sched k hk
    have h01 := exit_code_from w sched init (by simp [init]) k hk
    have h0 : k = 0 → Action.heartbeat manual_mode ∈ sched := by
      intro h; subst h
      exact exit_zero_from w sched init (by simp [init]) hk
    refine ⟨h01, h0, ?_⟩
    intro hno
    rcases h01 with h | h
    · exact absurd (h0 h) hno
    · exact h
  · intro c hc
    rcases step_exit_code w c with h | h
    · left; rw [h, hc]
    · right; exact h
  · intro h t
    have hk : (runN w 1 init).exit_code = some 1 := by
      simp [runN, step, init, Config.halt, Config.goto, h]
    rw [runN_add, runN_of_exited w t _ 1 hk]; exact hk
  · intro h1 h2 t
    have hk : (runN w 2 init).exit_code = some 1 := by
      cases ha : w.altitude_arg with
      | value v => exact absurd ha (h2 v)
      | invalid_argument => simp [runN, step, init, Config.halt, Config.goto, h1, ha]
      | out_of_range => simp [runN, step, init, Config.halt, Config.goto, h1, ha]
    rw [runN_add, runN_of_exited w t _ 1 hk]; exact hk
  · rintro h1 ⟨a, h2⟩ h3 t
    have hk : (runN w 3 init).exit_code = some 1 := by
      cases hd : w.dimension_arg with
      | value v => exact absurd hd (h3 v)
      | invalid_argument => simp [runN, step, init, Config.halt, Config.goto, h1, h2, hd]
      | out_of_range => simp [runN, step, init, Config.halt, Config.goto, h1, h2, hd]
    rw [runN_add, runN_of_exited w t _ 1 hk]; exact hk
  · rintro h1 ⟨a, h2⟩ ⟨d, h3⟩ h4 t
    have hk : (runN w 4 init).exit_code = some 1 := by
      simp [runN, step, init, Config.halt, Config.goto, h1, h2, h3, h4]
    rw [runN_add, runN_of_exited w t _ 1 hk]; exact hk
  · rintro h1 ⟨a, h2⟩ ⟨d, h3⟩ h4 h5 t
    have hk : (runN w 5 init).exit_code = some 1 := by
      simp [runN, step, init, Config.halt, Config.goto, h1, h2, h3, h4, h5]
    rw [runN_add, runN_of_exited w t _ 1 hk]; exact hk
  · rintro h1 ⟨a, h2⟩ ⟨d, h3⟩ h4 h5 h6 t
    have hk : (runN w 6 init).exit_code = some 1 := by
      simp [runN, step, init, Config.halt, Config.goto, h1, h2, h3, h4, h5, h6]
    rw [runN_add, runN_of_exited w t _ 1 hk]; exact hk
  · intro c hrun hpc hbad
    obtain ⟨pc, ec, a, d, r, v, s, hr, pr, br, sc, log⟩ := c
    simp only at hrun hpc hbad
    subst hrun hpc
    simp only [step, Config.halt, Config.goto, Config.emit]
    split_ifs with h1 h2
    · rfl
    · rfl
    · rcases hbad with hb | hb
      · exact absurd hb h1
      · exact absurd hb h2
  · intro c hrun hbad
    obtain ⟨pc, ec, a, d, r, v, s, hr, pr, br, sc, log⟩ := c
    simp only at hrun hbad
    subst hrun
    rcases hbad with ⟨rfl, hb⟩ | ⟨rfl, hb⟩ | ⟨rfl, hb⟩ <;>
      simp [step, Config.halt, Config.goto, Config.emit, hb]
  · intro c hrun hpc hzero
    obtain ⟨pc, ec, a, d, r, v, s, hr, pr, br, sc, log⟩ := c
    simp only at hrun hpc hzero
    subst hrun hpc hzero
    simp [step, Config.halt, Config.goto]

/-- C6 on two runs: on a command line with one argument too few the process ends with
exit code 1 in its first block and keeps that status; and the exit code 0 of the run
`heartbeatBeforePreflight` comes with a manual-takeover heartbeat in its schedule. -/
theorem exit_status_witness :
    (∀ t, (runN missingArgument (1 + t) init).exit_code = some 1) ∧
      ((0 = 0 ∨ 0 = 1) ∧
        (0 = 0 → Action.heartbeat manual_mode ∈ heartbeatBeforePreflight) ∧
        (Action.heartbeat manual_mode ∉ heartbeatBeforePreflight → 0 = 1)) :=
  ⟨(exit_status missingArgument).2.2.1 (by simp [missingArgument]),
   (exit_status cooperative).1 heartbeatBeforePreflight 0 (by
      norm_num [exec, act, deliver, heartbeatBeforePreflight, manual_mode, runN, step, init,
        cooperative, Config.goto, Config.emit, Config.halt])⟩

end Offboard
